import Mathlib

/-!
Verification development for the PyMD markdown-document generator
(`PyMD/MDGenerator.py`, `PyMD/tools/sections.py`, `PyMD/tools/utils.py`).

The document model is a tree of named sections holding ordered content
blocks (text, code, image, table, list, link, checkbox).  Sections are
`UserDict` subclasses: the child mapping is an insertion-ordered
dictionary.  We embed the tree, the path-resolution operators
(`__getitem__`, `get_section_ptr`), the typed `add_*` operations, item
assignment and deletion, validity, rendering, and the JSON interchange
(`_to_json` / `load_json` / `_from_json`) as executable Lean functions,
and prove properties of the embedding.

Python runtime errors (`TypeError`, `ValueError`, `KeyError`,
`IndexError`, `AttributeError`, `UnboundLocalError`) are modelled with
`Except PyErr`.  Python dictionaries are modelled as association lists
with python semantics: updating an existing key keeps its position,
inserting a fresh key appends at the end.
-/

/-- Python runtime errors that the embedded code can raise. -/
inductive PyErr where
  | typeError
  | valueError
  | keyError
  | indexError
  | attributeError
  | unboundLocalError
deriving DecidableEq, Repr

/-- The seven per-kind counters: `self.text`, `self.code`, `self.image`,
`self.table`, `self.list`, `self.link`, `self.checkbox` carried by both
`MDGenerator` and each `Section`, and also the shape of the
`SectionType.new_dictionary()` count table. -/
structure Counters where
  text : Nat
  code : Nat
  image : Nat
  table : Nat
  list : Nat
  link : Nat
  checkbox : Nat
deriving DecidableEq, Repr

def Counters.zero : Counters := ⟨0, 0, 0, 0, 0, 0, 0⟩

/-- A node of the document tree: either a `Section` (header, location,
its per-kind counters and its insertion-ordered child mapping) or one of
the seven content-block classes.  Each block stores the `location`
argument it was constructed with (`Optional[str]` in the source). -/
inductive Node where
  | nsec (header : String) (location : String) (ctr : Counters)
      (children : List (String × Node))
  | ntext (location : Option String) (body : String)
  | ncode (location : Option String) (body : String) (language : String)
  | nimage (location : Option String) (source : String) (caption : String)
  | ntable (location : Option String) (cells : List String)
      (columns : Int) (rows : Int)
  | nlist (location : Option String) (items : List String) (marker : String)
  | nlink (location : Option String) (url : String) (displayText : String)
  | ncheckbox (location : Option String) (items : List String)
      (checked : List Bool)

/-- Modelled from the spec: the document-wide context that `Section`
instances share.  In the snapshot under verification,
`Section.__init__` takes three parameters while every `MDGenerator`
call site invokes it as `Section(self.mdFile, key, "", self.section_headers)`
with the document's header registry as a fourth argument, and the
class attributes `Section.section_headers` / `Section.section_type_count`
are read (`append`, `+= 1`) but never initialized in the files provided;
the final constructor variant that threads this per-document context is
not part of the sources.  Following the spec (the document owns the
registry of all section full-paths ever created and the per-kind global
counters, and every node receives this context at creation), we model
the context as explicit state threaded through every operation.
`savePath`, `dpi` and `baseName` mirror the class attributes
`Section.save_path`, `Section.dpi` and the per-instance `base_name`,
which `MDGenerator.__init__` does set in the sources. -/
structure Ctx where
  hdrs : List String
  stc : Counters
  savePath : String
  dpi : Option Int
  baseName : String

/-- The `MDGenerator` document: root child mapping, the root's own
per-kind counters, the shared context, and the document settings. -/
structure Doc where
  children : List (String × Node)
  ctr : Counters
  ctx : Ctx
  fileName : String
  title : String
  author : String

/-! ## Python dict / list primitives -/

/-- `d[k]` lookup in an insertion-ordered dict modelled as an
association list (first match). -/
def lookupC : List (String × Node) → String → Option Node
  | [], _ => none
  | (k', v) :: rest, k => if k' = k then some v else lookupC rest k

/-- `d[k] = v` with python-dict semantics: replace in place when the key
exists, append otherwise. -/
def setC : List (String × Node) → String → Node → List (String × Node)
  | [], k, v => [(k, v)]
  | (k', v') :: rest, k, v =>
      if k' = k then (k, v) :: rest else (k', v') :: setC rest k v

/-- `del d[k]`: drop the first entry with the given key. -/
def delC : List (String × Node) → String → List (String × Node)
  | [], _ => []
  | (k', v') :: rest, k => if k' = k then rest else (k', v') :: delC rest k

/-- Follow an address (list of child keys) down a child mapping. -/
def getAtL (ch : List (String × Node)) : List String → Option Node
  | [] => none
  | [k] => lookupC ch k
  | k :: rest =>
      match lookupC ch k with
      | some (Node.nsec _ _ _ ch') => getAtL ch' rest
      | _ => none

/-! ## Python string primitives -/

/-- `str.split("/")` on the character list: splits at every `'/'`,
keeping empty fragments (python semantics for a nonempty separator). -/
def splitAux : List Char → List Char → List String
  | [], acc => [String.mk acc.reverse]
  | c :: rest, acc =>
      if c = '/' then String.mk acc.reverse :: splitAux rest []
      else splitAux rest (c :: acc)

/-- `key.split("/")` for a python string. -/
def pySplit (s : String) : List String := splitAux s.data []

/-- `"/".join(parts)`. -/
def pyJoin : List String → String
  | [] => ""
  | [x] => x
  | x :: xs => x ++ "/" ++ pyJoin xs

/-- The leading-slash strip `if len(key) > 0 and key[0] == "/": key = key[1:]`. -/
def pyStripSlash (s : String) : String :=
  match s.data with
  | [] => s
  | c :: rest => if c = '/' then String.mk rest else s

/-- `x.startswith(p)` on character lists. -/
def startsWithL : List Char → List Char → Bool
  | _, [] => true
  | [], _ :: _ => false
  | c :: cs, p :: ps => c = p && startsWithL cs ps

/-- `x.replace(pat, "")` (delete all non-overlapping occurrences,
left to right); fuelled to stay structurally recursive. -/
def replaceAllAux (pat : List Char) : Nat → List Char → List Char
  | 0, cs => cs
  | _ + 1, [] => []
  | fuel + 1, c :: cs =>
      if startsWithL (c :: cs) pat then
        replaceAllAux pat fuel ((c :: cs).drop pat.length)
      else
        c :: replaceAllAux pat fuel cs

/-- `x.replace(pat, "")` for python strings (with a nonempty pattern the
fuel `|x|` always suffices). -/
def pyReplaceAll (x pat : String) : String :=
  String.mk (replaceAllAux pat.data x.data.length x.data)

/-! ## Path resolution (`Section.get_header_location`, `__getitem__`,
`get_section_ptr`, `MDGenerator.__getitem__`) -/

/-- `Section.get_header_location`: the full path of a section, `header`
when the location is empty (root-attached), else `location + "/" + header`. -/
def headerLocation (header location : String) : String :=
  if location = "" then header else location ++ "/" ++ header

/-- Constructing `Section(mdFile, header, location, …)`: a fresh empty
section; per `Section.__init__` it registers its own
`get_header_location()` in the document-wide header registry (the
registry wiring is the spec-modelled context, see `Ctx`). -/
def mkSection (hdrs : List String) (header location : String) :
    List String × Node :=
  (hdrs ++ [headerLocation header location],
   Node.nsec header location Counters.zero [])

/-- Single-segment `Section.__getitem__` on a section's child mapping:
return the stored child, or create, register and attach a fresh
subsection named `k` (whose `location` is this section's
`get_header_location()`). -/
def secGet1 (hdrs : List String) (loc : String)
    (children : List (String × Node)) (k : String) :
    List String × List (String × Node) × Node :=
  match lookupC children k with
  | some nd => (hdrs, children, nd)
  | none =>
      let (hdrs', child) := mkSection hdrs k loc
      (hdrs', setC children k child, child)

/-- Resolving a list of path segments from a section node, mirroring
`get_section_ptr` followed by the final `__getitem__`: each segment is a
single-segment `Section.__getitem__` of the current pointer.  A pending
segment on a content block is python's `TypeError` (blocks are not
subscriptable).  Returns the updated header registry, the updated
subtree, and the address (relative key list) of the resolved node. -/
def resolveSegs (hdrs : List String) (nd : Node) :
    List String → Except PyErr (List String × Node × List String)
  | [] => .ok (hdrs, nd, [])
  | s :: rest =>
      match nd with
      | Node.nsec h l c children =>
          let loc := headerLocation h l
          let r := secGet1 hdrs loc children s
          match resolveSegs r.1 r.2.2 rest with
          | .error e => .error e
          | .ok (hdrs', child', addr) =>
              .ok (hdrs', Node.nsec h l c (setC r.2.1 s child'), s :: addr)
      | _ => .error .typeError

/-- Full `Section.__getitem__` on a section node: strip a leading `/`,
split on `/`, resolve the segments. -/
def secGetitem (hdrs : List String) (nd : Node) (key : String) :
    Except PyErr (List String × Node × List String) :=
  resolveSegs hdrs nd (pySplit (pyStripSlash key))

/-- Single-segment root access from `MDGenerator.__getitem__`: a missing
key is vivified with `Section(self.mdFile, key, "", self.section_headers)`,
but the attaching `self[key] = …` call enters `MDGenerator.__setitem__`,
whose unguarded `key[0]` raises `IndexError` on an empty key. -/
def rootGet1 (hdrs : List String) (children : List (String × Node))
    (k : String) :
    Except PyErr (List String × List (String × Node) × Node) :=
  match lookupC children k with
  | some nd => .ok (hdrs, children, nd)
  | none =>
      if k = "" then .error .indexError
      else
        let (hdrs', child) := mkSection hdrs k ""
        .ok (hdrs', setC children k child, child)

/-- `MDGenerator.__getitem__`: `key[0]` raises `IndexError` on the empty
key; a leading `/` is stripped; the first segment is resolved at the
root (where `get_section_ptr`'s re-entry into `MDGenerator.__getitem__`
makes an empty first segment of a multi-segment path an `IndexError`),
the remaining segments inside the resolved child.  Returns the updated
document and the address of the resolved node. -/
def mdGetitem (d : Doc) (key : String) :
    Except PyErr (Doc × List String) :=
  match key.data with
  | [] => .error .indexError
  | c :: restChars =>
      let kchars := if c = '/' then restChars else key.data
      match splitAux kchars [] with
      | [] => .error .indexError
      | [s] =>
          match rootGet1 d.ctx.hdrs d.children s with
          | .error e => .error e
          | .ok (hdrs', children', _) =>
              .ok ({ d with
                       children := children'
                       ctx := { d.ctx with hdrs := hdrs' } }, [s])
      | s :: rest =>
          if s = "" then .error .indexError
          else
            match rootGet1 d.ctx.hdrs d.children s with
            | .error e => .error e
            | .ok (hdrs', children', child) =>
                match resolveSegs hdrs' child rest with
                | .error e => .error e
                | .ok (hdrs'', child', addr) =>
                    .ok ({ d with
                             children := setC children' s child'
                             ctx := { d.ctx with hdrs := hdrs'' } },
                         s :: addr)

/-- Decidable success test for `resolveSegs`: descending into an
existing child requires it to be a section unless it is the final
segment; a missing child always succeeds (the whole remaining path is
freshly created). -/
def segsOk (nd : Node) : List String → Bool
  | [] => true
  | s :: rest =>
      match nd with
      | Node.nsec _ _ _ children =>
          match lookupC children s with
          | some child => segsOk child rest
          | none => true
      | _ => false

/-- Decidable success test for `MDGenerator.__getitem__`. -/
def rootOk (d : Doc) (key : String) : Bool :=
  match key.data with
  | [] => false
  | c :: restChars =>
      let kchars := if c = '/' then restChars else key.data
      match splitAux kchars [] with
      | [] => false
      | [s] => (lookupC d.children s).isSome || s ≠ ""
      | s :: rest =>
          s ≠ "" &&
          match lookupC d.children s with
          | some child => segsOk child rest
          | none => true

def isOkE : Except PyErr α → Bool
  | .ok _ => true
  | .error _ => false

/-! ## Synthetic child names (`get_section_name`) -/

/-- `Section.get_section_name`: the key under which a child is stored —
the header for a `Section`, a synthetic per-kind name (`text0`,
`code0`, …) from this section's own counters otherwise.  The `Section`
variant does not increment any counter. -/
def secGetSectionName (c : Counters) : Node → String
  | .nsec h _ _ _ => h
  | .ntext _ _ => "text" ++ toString c.text
  | .ncode _ _ _ => "code" ++ toString c.code
  | .nimage _ _ _ => "image" ++ toString c.image
  | .ntable _ _ _ _ => "table" ++ toString c.table
  | .nlist _ _ _ => "list" ++ toString c.list
  | .nlink _ _ _ => "link" ++ toString c.link
  | .ncheckbox _ _ _ => "checkbox" ++ toString c.checkbox

/-- `MDGenerator.get_section_name`: same naming scheme, but this variant
increments the matching root counter as a side effect. -/
def mdGetSectionName (c : Counters) : Node → Counters × String
  | .nsec h _ _ _ => (c, h)
  | .ntext _ _ => ({ c with text := c.text + 1 }, "text" ++ toString c.text)
  | .ncode _ _ _ => ({ c with code := c.code + 1 }, "code" ++ toString c.code)
  | .nimage _ _ _ => ({ c with image := c.image + 1 }, "image" ++ toString c.image)
  | .ntable _ _ _ _ => ({ c with table := c.table + 1 }, "table" ++ toString c.table)
  | .nlist _ _ _ => ({ c with list := c.list + 1 }, "list" ++ toString c.list)
  | .nlink _ _ _ => ({ c with link := c.link + 1 }, "link" ++ toString c.link)
  | .ncheckbox _ _ _ =>
      ({ c with checkbox := c.checkbox + 1 }, "checkbox" ++ toString c.checkbox)

/-! ## Item assignment with a node value (`__setitem__` with a
`BaseSection`) -/

/-- `Section.__setitem__` with a `BaseSection` value, after splitting:
middle segments are resolved with vivifying `__getitem__`
(`get_section_ptr`), the final segment is a plain dict store.  Item
assignment through a content block is python's `TypeError`. -/
def setNodeSegs (hdrs : List String) (nd : Node) (segs : List String)
    (v : Node) : Except PyErr (List String × Node) :=
  match segs with
  | [] => .error .typeError
  | [last] =>
      match nd with
      | Node.nsec h l c ch => .ok (hdrs, Node.nsec h l c (setC ch last v))
      | _ => .error .typeError
  | s :: rest =>
      match nd with
      | Node.nsec h l c ch =>
          let r := secGet1 hdrs (headerLocation h l) ch s
          match setNodeSegs r.1 r.2.2 rest v with
          | .error e => .error e
          | .ok (hdrs', child') =>
              .ok (hdrs', Node.nsec h l c (setC r.2.1 s child'))
      | _ => .error .typeError

/-- `MDGenerator.__setitem__` with a `BaseSection` value: unguarded
`key[0]` (`IndexError` on the empty key), strip, split, store.  The
graft-registration guard at the top (`section.section_headers is None`)
never fires under the modelled context (every section carries the
document registry), so it is omitted. -/
def mdSetitemNode (d : Doc) (key : String) (v : Node) : Except PyErr Doc :=
  match key.data with
  | [] => .error .indexError
  | c :: restChars =>
      let kchars := if c = '/' then restChars else key.data
      match splitAux kchars [] with
      | [] => .error .indexError
      | [s] => .ok { d with children := setC d.children s v }
      | s :: rest =>
          if s = "" then .error .indexError
          else
            match rootGet1 d.ctx.hdrs d.children s with
            | .error e => .error e
            | .ok (hdrs', children', child) =>
                match setNodeSegs hdrs' child rest v with
                | .error e => .error e
                | .ok (hdrs'', child') =>
                    .ok { d with
                            children := setC children' s child'
                            ctx := { d.ctx with hdrs := hdrs'' } }

/-! ## Typed append operations on a section (`Section.add_*`) -/

/-- `Section.add_section(None, blk)` for a block argument: store the
block under its synthetic name and hand it back.  The synthetic names
(`textN`, `codeN`, …) contain no `/` and are nonempty, so the inner
`self[name] = section` is the single-segment plain dict store. -/
def secAddSectionNone (ctr : Counters) (ch : List (String × Node)) :
    Option Node → List (String × Node) × Option Node
  | none => (ch, none)
  | some blk => (setC ch (secGetSectionName ctr blk) blk, some blk)

/-- `Section.add_text`: construct the `TextSection` (its `location` is
this section's full path), attach it, then bump the section-local and
document-wide text counters. -/
def secAddText (ctx : Ctx) (h l : String) (ctr : Counters)
    (ch : List (String × Node)) (txt : String) :
    Ctx × Counters × List (String × Node) × Node :=
  let blk := Node.ntext (some (headerLocation h l)) txt
  let r := secAddSectionNone ctr ch (some blk)
  ({ ctx with stc := { ctx.stc with text := ctx.stc.text + 1 } },
   { ctr with text := ctr.text + 1 }, r.1, blk)

/-- `Section.add_code`. -/
def secAddCode (ctx : Ctx) (h l : String) (ctr : Counters)
    (ch : List (String × Node)) (code lang : String) :
    Ctx × Counters × List (String × Node) × Node :=
  let blk := Node.ncode (some (headerLocation h l)) code lang
  let r := secAddSectionNone ctr ch (some blk)
  ({ ctx with stc := { ctx.stc with code := ctx.stc.code + 1 } },
   { ctr with code := ctr.code + 1 }, r.1, blk)

/-- The `figure` argument of `add_image`: a matplotlib `Figure` (whose
contents only the external materializer reads) or a path string. -/
inductive FigOrPath where
  | pfig
  | pstr (s : String)

/-- `Section.add_image`: a `Figure` is materialized by the external
collaborator to `save_path/figures/{base_name}_image{N}.png` (the
document-wide image count names the file) and replaced by that path; a
path string is passed through unchanged to the `ImageSection`, whose
constructor stores the path and defaults a missing caption to `""`. -/
def secAddImage (ctx : Ctx) (h l : String) (ctr : Counters)
    (ch : List (String × Node)) (fig : FigOrPath) (caption : Option String) :
    Ctx × Counters × List (String × Node) × Node :=
  let src :=
    match fig with
    | .pstr s => s
    | .pfig =>
        ctx.savePath ++ "/" ++ "figures" ++ "/" ++ ctx.baseName ++
          "_image" ++ toString ctx.stc.image ++ ".png"
  let blk := Node.nimage (some (headerLocation h l)) src (caption.getD "")
  let r := secAddSectionNone ctr ch (some blk)
  ({ ctx with stc := { ctx.stc with image := ctx.stc.image + 1 } },
   { ctr with image := ctr.image + 1 }, r.1, blk)

/-- The `table` argument of `add_table`: a pandas `DataFrame` (labelled
columns and stringified row-major values), a numpy array (its shape and
stringified flattened values), an explicit cell list, or `None`. -/
inductive TableInput where
  | tframe (colNames : List String) (vals : List (List String))
  | tarr (shape0 shape1 : Nat) (vals : List String)
  | tlist (cells : List String)
  | tnone

/-- `Section.add_table`: a `DataFrame` / array input overwrites
`columns`/`rows` from its shape, prepends a header row (the labels, or
synthesized `Column N` names) and adds one to the row count; `None` is a
`ValueError`; then the shape invariant `columns * rows == len(table)` is
checked (a mismatch or a missing count is a `ValueError`) before the
`TableSection` is attached and the counters bumped. -/
def secAddTable (ctx : Ctx) (h l : String) (ctr : Counters)
    (ch : List (String × Node)) (input : TableInput)
    (columns rows : Option Int) :
    Except PyErr (Ctx × Counters × List (String × Node) × Node) :=
  match
    (match input with
     | .tframe colNames vals =>
         .ok (colNames ++ vals.flatten, some (colNames.length : Int),
              some ((vals.length : Int) + 1))
     | .tarr r c vals =>
         .ok ((List.range c).map (fun x => "Column " ++ toString (x + 1))
                ++ vals,
              some (c : Int), some ((r : Int) + 1))
     | .tlist cells => .ok (cells, columns, rows)
     | .tnone => .error .valueError :
       Except PyErr (List String × Option Int × Option Int)) with
  | .error e => .error e
  | .ok (cells, columns, rows) =>
      match columns, rows with
      | some cNum, some rNum =>
          if cNum * rNum ≠ (cells.length : Int) then .error .valueError
          else
            let blk :=
              Node.ntable (some (headerLocation h l)) cells cNum rNum
            let r := secAddSectionNone ctr ch (some blk)
            .ok ({ ctx with
                     stc := { ctx.stc with table := ctx.stc.table + 1 } },
                 { ctr with table := ctr.table + 1 }, r.1, blk)
      | _, _ => .error .valueError

/-- `Section.add_list`. -/
def secAddList (ctx : Ctx) (h l : String) (ctr : Counters)
    (ch : List (String × Node)) (items : List String) (marker : String) :
    Ctx × Counters × List (String × Node) × Node :=
  let blk := Node.nlist (some (headerLocation h l)) items marker
  let r := secAddSectionNone ctr ch (some blk)
  ({ ctx with stc := { ctx.stc with list := ctx.stc.list + 1 } },
   { ctr with list := ctr.list + 1 }, r.1, blk)

/-- `Section.add_link`: the `LinkSection` constructor defaults a missing
display text to the url. -/
def secAddLink (ctx : Ctx) (h l : String) (ctr : Counters)
    (ch : List (String × Node)) (url : String) (txt : Option String) :
    Ctx × Counters × List (String × Node) × Node :=
  let blk := Node.nlink (some (headerLocation h l)) url (txt.getD url)
  let r := secAddSectionNone ctr ch (some blk)
  ({ ctx with stc := { ctx.stc with link := ctx.stc.link + 1 } },
   { ctr with link := ctr.link + 1 }, r.1, blk)

/-- The `checked` argument of `add_checkbox`: a single bool or a list. -/
inductive CheckedArg where
  | cbool (b : Bool)
  | clist (l : List Bool)

/-- `CheckBoxSection.__init__`'s handling of `checked`: a single bool is
broadcast to every item, a list is accepted exactly when its length
matches the item list, anything else is a `ValueError`. -/
def checkboxChecked (items : List String) :
    CheckedArg → Except PyErr (List Bool)
  | .cbool b => .ok (List.replicate items.length b)
  | .clist l =>
      if l.length = items.length then .ok l else .error .valueError

/-- `Section.add_checkbox`: the constructor may reject `checked`;
otherwise the block is attached and the counters bumped. -/
def secAddCheckbox (ctx : Ctx) (h l : String) (ctr : Counters)
    (ch : List (String × Node)) (items : List String) (checked : CheckedArg) :
    Except PyErr (Ctx × Counters × List (String × Node) × Node) :=
  match checkboxChecked items checked with
  | .error e => .error e
  | .ok cks =>
      let blk := Node.ncheckbox (some (headerLocation h l)) items cks
      let r := secAddSectionNone ctr ch (some blk)
      .ok ({ ctx with
               stc := { ctx.stc with checkbox := ctx.stc.checkbox + 1 } },
           { ctr with checkbox := ctr.checkbox + 1 }, r.1, blk)

/-! ## `add_section` (heading-directed attachment) -/

/-- `Section.add_section`: `None` heading attaches the block here; a
string heading is stripped of a leading `/`, split, the head child is
vivified if missing, and the remainder is re-joined with `/` and handled
recursively (note the re-join feeds the recursive call's own strip).
Calling `add_section` on a content block is python's `AttributeError`.
Fuelled: every recursive call shortens the heading, so any fuel above
the heading length is enough. -/
def secAddSection (fuel : Nat) (hdrs : List String) (nd : Node)
    (heading : Option String) (sectionArg : Option Node) :
    Except PyErr (List String × Node × Option Node) :=
  match fuel with
  | 0 => .error .typeError
  | fuel + 1 =>
      match nd with
      | Node.nsec h l ctr ch =>
          match heading with
          | none =>
              let r := secAddSectionNone ctr ch sectionArg
              .ok (hdrs, Node.nsec h l ctr r.1, r.2)
          | some hd =>
              let hd := pyStripSlash hd
              match pySplit hd with
              | [] => .error .typeError
              | [head] =>
                  let loc := headerLocation h l
                  let (hdrs1, ch1) :=
                    match lookupC ch head with
                    | some _ => (hdrs, ch)
                    | none =>
                        let m := mkSection hdrs head loc
                        (m.1, setC ch head m.2)
                  match sectionArg with
                  | some _ =>
                      match lookupC ch1 head with
                      | some child =>
                          match secAddSection fuel hdrs1 child none
                              sectionArg with
                          | .error e => .error e
                          | .ok (hdrs2, child', res) =>
                              .ok (hdrs2,
                                   Node.nsec h l ctr (setC ch1 head child'),
                                   res)
                      | none => .error .keyError
                  | none =>
                      match lookupC ch1 head with
                      | some child =>
                          .ok (hdrs1, Node.nsec h l ctr ch1, some child)
                      | none => .error .keyError
              | head :: rest =>
                  let loc := headerLocation h l
                  let (hdrs1, ch1) :=
                    match lookupC ch head with
                    | some _ => (hdrs, ch)
                    | none =>
                        let m := mkSection hdrs head loc
                        (m.1, setC ch head m.2)
                  match lookupC ch1 head with
                  | some child =>
                      match secAddSection fuel hdrs1 child
                          (some (pyJoin rest)) sectionArg with
                      | .error e => .error e
                      | .ok (hdrs2, child', res) =>
                          .ok (hdrs2,
                               Node.nsec h l ctr (setC ch1 head child'),
                               res)
                  | none => .error .keyError
      | _ => .error .attributeError

/-- `MDGenerator.add_section`: `None` heading stores a block at the root
under its synthetic name (via `get_section_name`, which increments the
root counter); an empty heading raises `IndexError` at the strip guard;
otherwise the head segment is vivified at the root if missing and the
block is delegated to `Section.add_section`; when a prebuilt `Section`
object was attached, the (stripped) heading string is appended to the
header registry afterwards. -/
def mdAddSection (fuel : Nat) (d : Doc) (heading : Option String)
    (sectionArg : Option Node) : Except PyErr (Doc × Option Node) :=
  let typeSection :=
    match sectionArg with
    | some (Node.nsec _ _ _ _) => true
    | _ => false
  match heading with
  | none =>
      match sectionArg with
      | none => .ok (d, none)
      | some blk =>
          let r := mdGetSectionName d.ctr blk
          match mdSetitemNode { d with ctr := r.1 } r.2 blk with
          | .error e => .error e
          | .ok d' => .ok (d', some blk)
  | some hd =>
      if hd = "" then .error .indexError
      else
        let hd := pyStripSlash hd
        let afterBranch :
            Except PyErr (Doc × Option Node) :=
          match pySplit hd with
          | [] => .error .typeError
          | [head] =>
              match lookupC d.children head with
              | none =>
                  let m := mkSection d.ctx.hdrs head ""
                  match mdSetitemNode
                      { d with ctx := { d.ctx with hdrs := m.1 } }
                      head m.2 with
                  | .error e => .error e
                  | .ok d1 =>
                      match sectionArg with
                      | some _ =>
                          match lookupC d1.children head with
                          | some child =>
                              match secAddSection fuel d1.ctx.hdrs child
                                  none sectionArg with
                              | .error e => .error e
                              | .ok (hdrs2, child', res) =>
                                  .ok ({ d1 with
                                           children :=
                                             setC d1.children head child'
                                           ctx := { d1.ctx with
                                                      hdrs := hdrs2 } },
                                       res)
                          | none => .error .keyError
                      | none =>
                          .ok (d1, lookupC d1.children head)
              | some child =>
                  match sectionArg with
                  | some _ =>
                      match secAddSection fuel d.ctx.hdrs child none
                          sectionArg with
                      | .error e => .error e
                      | .ok (hdrs2, child', res) =>
                          .ok ({ d with
                                   children := setC d.children head child'
                                   ctx := { d.ctx with hdrs := hdrs2 } },
                               res)
                  | none => .ok (d, none)
          | head :: rest =>
              let (d0, attachErr) :
                  Doc × Option PyErr :=
                match lookupC d.children head with
                | some _ => (d, none)
                | none =>
                    let m := mkSection d.ctx.hdrs head ""
                    match mdSetitemNode
                        { d with ctx := { d.ctx with hdrs := m.1 } }
                        head m.2 with
                    | .error e => (d, some e)
                    | .ok d1 => (d1, none)
              match attachErr with
              | some e => .error e
              | none =>
                  match lookupC d0.children head with
                  | some child =>
                      match secAddSection fuel d0.ctx.hdrs child
                          (some (pyJoin rest)) sectionArg with
                      | .error e => .error e
                      | .ok (hdrs2, child', res) =>
                          .ok ({ d0 with
                                   children := setC d0.children head child'
                                   ctx := { d0.ctx with hdrs := hdrs2 } },
                               res)
                  | none => .error .keyError
        match afterBranch with
        | .error e => .error e
        | .ok (d', res) =>
            if typeSection && res.isSome then
              .ok ({ d' with
                       ctx := { d'.ctx with
                                  hdrs := d'.ctx.hdrs ++ [hd] } }, res)
            else .ok (d', res)

/-- Fuel that always suffices for `add_section`'s heading recursion. -/
def addFuel : Option String → Nat
  | none => 2
  | some h => h.data.length + 2

/-! ## `MDGenerator.add_*` (heading-directed typed appends) -/

/-- `MDGenerator.add_text`: the heading guard `heading[0]` raises
`IndexError` on an empty heading; a leading `/` is stripped; the
`TextSection` is constructed with the (stripped) heading as its
location, attached via `add_section`, and on a truthy result the root
text counter is bumped. -/
def mdAddText (d : Doc) (heading : Option String) (txt : String) :
    Except PyErr (Doc × Option Node) :=
  match heading with
  | some hd =>
      if hd = "" then .error .indexError
      else
        let hd := pyStripSlash hd
        let blk := Node.ntext (some hd) txt
        match mdAddSection (addFuel (some hd)) d (some hd) (some blk) with
        | .error e => .error e
        | .ok (d', res) =>
            if res.isSome then
              .ok ({ d' with ctr := { d'.ctr with text := d'.ctr.text + 1 } },
                   res)
            else .ok (d', res)
  | none =>
      let blk := Node.ntext none txt
      match mdAddSection (addFuel none) d none (some blk) with
      | .error e => .error e
      | .ok (d', res) =>
          if res.isSome then
            .ok ({ d' with ctr := { d'.ctr with text := d'.ctr.text + 1 } },
                 res)
          else .ok (d', res)

/-- `MDGenerator.add_code`. -/
def mdAddCode (d : Doc) (heading : Option String) (code lang : String) :
    Except PyErr (Doc × Option Node) :=
  match heading with
  | some hd =>
      if hd = "" then .error .indexError
      else
        let hd := pyStripSlash hd
        let blk := Node.ncode (some hd) code lang
        match mdAddSection (addFuel (some hd)) d (some hd) (some blk) with
        | .error e => .error e
        | .ok (d', res) =>
            if res.isSome then
              .ok ({ d' with ctr := { d'.ctr with code := d'.ctr.code + 1 } },
                   res)
            else .ok (d', res)
  | none =>
      let blk := Node.ncode none code lang
      match mdAddSection (addFuel none) d none (some blk) with
      | .error e => .error e
      | .ok (d', res) =>
          if res.isSome then
            .ok ({ d' with ctr := { d'.ctr with code := d'.ctr.code + 1 } },
                 res)
          else .ok (d', res)

/-- `MDGenerator.add_image`: after the heading guard, only the
`isinstance(figure, Figure)` branch assigns the local `image_path`; the
following `ImageSection(self.mdFile, heading, image_path, caption)`
therefore raises `UnboundLocalError` whenever `figure` was a path
string.  For a `Figure`, the external materializer writes
`save_path/figures/image{N}.png` (named by the root image counter) and
that path is stored. -/
def mdAddImage (d : Doc) (heading : Option String) (fig : FigOrPath)
    (caption : Option String) : Except PyErr (Doc × Option Node) :=
  let go (hd : Option String) : Except PyErr (Doc × Option Node) :=
    match fig with
    | .pstr _ => .error .unboundLocalError
    | .pfig =>
        let src := d.ctx.savePath ++ "/" ++ "figures" ++ "/" ++ "image" ++
          toString d.ctr.image ++ ".png"
        let blk := Node.nimage hd src (caption.getD "")
        match mdAddSection (addFuel hd) d hd (some blk) with
        | .error e => .error e
        | .ok (d', res) =>
            if res.isSome then
              .ok ({ d' with
                       ctr := { d'.ctr with image := d'.ctr.image + 1 } },
                   res)
            else .ok (d', res)
  match heading with
  | some hd =>
      if hd = "" then .error .indexError else go (some (pyStripSlash hd))
  | none => go none

/-- `MDGenerator.add_code` sibling for tables: same input normalization
and shape check as `Section.add_table` (the code is duplicated in the
source), then attachment under the heading. -/
def mdAddTable (d : Doc) (heading : Option String) (input : TableInput)
    (columns rows : Option Int) : Except PyErr (Doc × Option Node) :=
  let go (hd : Option String) : Except PyErr (Doc × Option Node) :=
    match
      (match input with
       | .tframe colNames vals =>
           .ok (colNames ++ vals.flatten, some (colNames.length : Int),
                some ((vals.length : Int) + 1))
       | .tarr r c vals =>
           .ok ((List.range c).map (fun x => "Column " ++ toString (x + 1))
                  ++ vals,
                some (c : Int), some ((r : Int) + 1))
       | .tlist cells => .ok (cells, columns, rows)
       | .tnone => .error .valueError :
         Except PyErr (List String × Option Int × Option Int)) with
    | .error e => .error e
    | .ok (cells, columns, rows) =>
        match columns, rows with
        | some cNum, some rNum =>
            if cNum * rNum ≠ (cells.length : Int) then .error .valueError
            else
              let blk := Node.ntable hd cells cNum rNum
              match mdAddSection (addFuel hd) d hd (some blk) with
              | .error e => .error e
              | .ok (d', res) =>
                  if res.isSome then
                    .ok ({ d' with
                             ctr := { d'.ctr with
                                        table := d'.ctr.table + 1 } }, res)
                  else .ok (d', res)
        | _, _ => .error .valueError
  match heading with
  | some hd =>
      if hd = "" then .error .indexError else go (some (pyStripSlash hd))
  | none => go none

/-- `MDGenerator.add_list` (no bullet-marker parameter: the
`ListSection` default `-` applies). -/
def mdAddList (d : Doc) (heading : Option String) (items : List String) :
    Except PyErr (Doc × Option Node) :=
  let go (hd : Option String) : Except PyErr (Doc × Option Node) :=
    let blk := Node.nlist hd items "-"
    match mdAddSection (addFuel hd) d hd (some blk) with
    | .error e => .error e
    | .ok (d', res) =>
        if res.isSome then
          .ok ({ d' with ctr := { d'.ctr with list := d'.ctr.list + 1 } },
               res)
        else .ok (d', res)
  match heading with
  | some hd =>
      if hd = "" then .error .indexError else go (some (pyStripSlash hd))
  | none => go none

/-- `MDGenerator.add_link`. -/
def mdAddLink (d : Doc) (heading : Option String) (url : String)
    (txt : Option String) : Except PyErr (Doc × Option Node) :=
  let go (hd : Option String) : Except PyErr (Doc × Option Node) :=
    let blk := Node.nlink hd url (txt.getD url)
    match mdAddSection (addFuel hd) d hd (some blk) with
    | .error e => .error e
    | .ok (d', res) =>
        if res.isSome then
          .ok ({ d' with ctr := { d'.ctr with link := d'.ctr.link + 1 } },
               res)
        else .ok (d', res)
  match heading with
  | some hd =>
      if hd = "" then .error .indexError else go (some (pyStripSlash hd))
  | none => go none

/-- `MDGenerator.add_checkbox`: the `CheckBoxSection` constructor
validates `checked` before attachment. -/
def mdAddCheckbox (d : Doc) (heading : Option String) (items : List String)
    (checked : CheckedArg) : Except PyErr (Doc × Option Node) :=
  let go (hd : Option String) : Except PyErr (Doc × Option Node) :=
    match checkboxChecked items checked with
    | .error e => .error e
    | .ok cks =>
        let blk := Node.ncheckbox hd items cks
        match mdAddSection (addFuel hd) d hd (some blk) with
        | .error e => .error e
        | .ok (d', res) =>
            if res.isSome then
              .ok ({ d' with
                       ctr := { d'.ctr with
                                  checkbox := d'.ctr.checkbox + 1 } }, res)
            else .ok (d', res)
  match heading with
  | some hd =>
      if hd = "" then .error .indexError else go (some (pyStripSlash hd))
  | none => go none

/-! ## Deletion (`__delitem__`) -/

/-- `Section.__delitem__`: remove the first registry entry equal to the
bare key (if any), then delete the child from the mapping (`KeyError`
when absent). -/
def secDelitem (hdrs : List String) (children : List (String × Node))
    (k : String) :
    Except PyErr (List String × List (String × Node)) :=
  let hdrs' := if hdrs.contains k then hdrs.erase k else hdrs
  match lookupC children k with
  | none => .error .keyError
  | some _ => .ok (hdrs', delC children k)

/-- `MDGenerator.__delitem__`: identical shape at the root. -/
def mdDelitem (d : Doc) (k : String) : Except PyErr Doc :=
  let hdrs' :=
    if d.ctx.hdrs.contains k then d.ctx.hdrs.erase k else d.ctx.hdrs
  match lookupC d.children k with
  | none => .error .keyError
  | some _ =>
      .ok { d with
              children := delC d.children k
              ctx := { d.ctx with hdrs := hdrs' } }

/-! ## Validity (`is_valid`) -/

/-- `Section.is_valid` iterates `for section_name, section in self:` —
over a `UserDict` this yields the KEYS, so each key string is unpacked
into the two loop variables: a key of any length other than two raises
`ValueError` at the unpack, a two-character key unpacks into two
one-character strings on which the `section.is_valid()` call raises
`AttributeError`.  Only an empty section reaches `return True`. -/
def secIsValidChildren : List (String × Node) → Except PyErr Bool
  | [] => .ok true
  | (k, _) :: _ =>
      if k.data.length = 2 then .error .attributeError
      else .error .valueError

/-- `is_valid` of a node: the broken key-iteration for sections; for a
`CodeSection` false exactly when the body is empty; every other block
kind returns true. -/
def nodeIsValid : Node → Except PyErr Bool
  | .nsec _ _ _ ch => secIsValidChildren ch
  | .ncode _ body _ => .ok (if body.data.length = 0 then false else true)
  | _ => .ok true

/-! ## Rendering -/

/-- The markdown-emission primitives the renderer invokes on the
external writer, in order. -/
inductive MdEvent where
  | hdr (level : Nat) (title : String)
  | nl
  | para (txt : String)
  | codeB (code language : String)
  | inlineImage (caption source : String)
  | tableB (columns rows : Int) (cells : List String)
  | listB (items : List String) (marker : String)
  | linkLine (txt url : String)
  | checkLine (checked : Bool) (txt : String)
deriving DecidableEq, Repr

/-- `render` of a node at a heading level (defaults: no blank line
above, one below).  A section emits its heading then its children in
mapping order at `level+1`; each block kind emits its one primitive.
The image path relativization is the external writer's concern: the
event carries the stored source.  Fuelled for the nested recursion; any
fuel above the tree depth is enough. -/
def renderNode (fuel : Nat) (nd : Node) (level : Nat) : List MdEvent :=
  match fuel with
  | 0 => []
  | fuel + 1 =>
      match nd with
      | .nsec h _ _ ch =>
          [MdEvent.hdr level h, MdEvent.nl] ++
            (ch.map (fun p => renderNode fuel p.2 (level + 1))).flatten
      | .ntext _ t => [MdEvent.para t, MdEvent.nl]
      | .ncode _ c lang => [MdEvent.codeB c lang, MdEvent.nl]
      | .nimage _ src cap => [MdEvent.inlineImage cap src, MdEvent.nl]
      | .ntable _ cells c r => [MdEvent.tableB c r cells, MdEvent.nl]
      | .nlist _ items m => [MdEvent.listB items m, MdEvent.nl]
      | .nlink _ url t => [MdEvent.linkLine t url, MdEvent.nl]
      | .ncheckbox _ items cks =>
          (List.zip items cks).map
            (fun p => MdEvent.checkLine p.2 p.1) ++ [MdEvent.nl]

/-- `MDGenerator.save`'s emission loop: render every root child in
mapping order at level 1 (the title/author front matter and the final
file flush belong to the external writer). -/
def docRender (fuel : Nat) (d : Doc) : List MdEvent :=
  (d.children.map (fun p => renderNode fuel p.2 1)).flatten

/-! ## Item assignment (`__setitem__` value dispatch) -/

/-- The value side of `section[key] = value`. -/
inductive PyVal where
  | pnode (nd : Node)
  | pystr (s : String)
  | pyframe (colNames : List String) (vals : List (List String))
  | pyarr (shape0 shape1 : Nat) (vals : List String)
  | pyfig
  | pylist (items : List String)
  | pyother

/-- `Section.__setitem__` after splitting: middle segments are resolved
with the vivifying `__getitem__`; at the final segment a `BaseSection`
value is a plain dict store, while a string / table-like / figure /
list value first vivifies `self[key]` and then calls the matching
typed `add_*` on it (`AttributeError` when that resolved child is a
content block); any other value type is a `ValueError`. -/
def setVSegs (ctx : Ctx) (nd : Node) (segs : List String) (v : PyVal) :
    Except PyErr (Ctx × Node) :=
  match segs with
  | [] => .error .typeError
  | [last] =>
      match nd with
      | Node.nsec h l ctr ch =>
          match v with
          | .pnode blk => .ok (ctx, Node.nsec h l ctr (setC ch last blk))
          | .pyother => .error .valueError
          | _ =>
              let r := secGet1 ctx.hdrs (headerLocation h l) ch last
              match r.2.2 with
              | Node.nsec h2 l2 c2 ch2 =>
                  let ctx1 := { ctx with hdrs := r.1 }
                  match
                    (match v with
                     | .pystr s =>
                         let a := secAddText ctx1 h2 l2 c2 ch2 s
                         .ok (a.1, a.2.1, a.2.2.1)
                     | .pyframe colNames vals =>
                         match secAddTable ctx1 h2 l2 c2 ch2
                             (.tframe colNames vals) (some 3) (some 3) with
                         | .error e => .error e
                         | .ok a => .ok (a.1, a.2.1, a.2.2.1)
                     | .pyarr s0 s1 vals =>
                         match secAddTable ctx1 h2 l2 c2 ch2
                             (.tarr s0 s1 vals) (some 3) (some 3) with
                         | .error e => .error e
                         | .ok a => .ok (a.1, a.2.1, a.2.2.1)
                     | .pyfig =>
                         let a := secAddImage ctx1 h2 l2 c2 ch2 .pfig none
                         .ok (a.1, a.2.1, a.2.2.1)
                     | .pylist items =>
                         let a := secAddList ctx1 h2 l2 c2 ch2 items "-"
                         .ok (a.1, a.2.1, a.2.2.1)
                     | _ => .error .valueError :
                       Except PyErr
                         (Ctx × Counters × List (String × Node))) with
                  | .error e => .error e
                  | .ok (ctx2, c2', ch2') =>
                      .ok (ctx2,
                           Node.nsec h l ctr
                             (setC r.2.1 last (Node.nsec h2 l2 c2' ch2')))
              | _ => .error .attributeError
      | _ => .error .typeError
  | s :: rest =>
      match nd with
      | Node.nsec h l ctr ch =>
          let r := secGet1 ctx.hdrs (headerLocation h l) ch s
          match setVSegs { ctx with hdrs := r.1 } r.2.2 rest v with
          | .error e => .error e
          | .ok (ctx', child') =>
              .ok (ctx', Node.nsec h l ctr (setC r.2.1 s child'))
      | _ => .error .typeError

/-- Full `Section.__setitem__`. -/
def secSetitemV (ctx : Ctx) (nd : Node) (key : String) (v : PyVal) :
    Except PyErr (Ctx × Node) :=
  setVSegs ctx nd (pySplit (pyStripSlash key)) v

/-- `MDGenerator.__setitem__`: unguarded `key[0]` (`IndexError` on the
empty key); a multi-segment key delegates to the section machinery; for
a single-segment key a `BaseSection` value is a plain store, while a
string / table-like / figure value is handed to the root-level
`add_*` with heading `None` — the key is ignored.  A list value has no
branch at the root: `ValueError`. -/
def mdSetitemV (d : Doc) (key : String) (v : PyVal) : Except PyErr Doc :=
  match key.data with
  | [] => .error .indexError
  | c :: restChars =>
      let kchars := if c = '/' then restChars else key.data
      match splitAux kchars [] with
      | [] => .error .indexError
      | [s] =>
          match v with
          | .pnode blk => .ok { d with children := setC d.children s blk }
          | .pystr txt =>
              match mdAddText d none txt with
              | .error e => .error e
              | .ok (d', _) => .ok d'
          | .pyframe colNames vals =>
              match mdAddTable d none (.tframe colNames vals) none none with
              | .error e => .error e
              | .ok (d', _) => .ok d'
          | .pyarr s0 s1 vals =>
              match mdAddTable d none (.tarr s0 s1 vals) none none with
              | .error e => .error e
              | .ok (d', _) => .ok d'
          | .pyfig =>
              match mdAddImage d none .pfig none with
              | .error e => .error e
              | .ok (d', _) => .ok d'
          | _ => .error .valueError
      | s :: rest =>
          if s = "" then .error .indexError
          else
            match rootGet1 d.ctx.hdrs d.children s with
            | .error e => .error e
            | .ok (hdrs', children', child) =>
                match setVSegs { d.ctx with hdrs := hdrs' } child rest v with
                | .error e => .error e
                | .ok (ctx', child') =>
                    .ok { d with
                            children := setC children' s child'
                            ctx := ctx' }

/-! ## JSON interchange (`_to_json` / `save_json` / `load_json` /
`_from_json`).  `json.dump` / `json.load` preserve the object values and
key order, so the interchange is modelled directly on JSON values. -/

/-- JSON values. -/
inductive JVal where
  | jstr (s : String)
  | jint (n : Int)
  | jbool (b : Bool)
  | jnull
  | jarr (items : List JVal)
  | jobj (fields : List (String × JVal))

def lookupJ : List (String × JVal) → String → Option JVal
  | [], _ => none
  | (k', v) :: rest, k => if k' = k then some v else lookupJ rest k

/-- `value[k]`: `KeyError` when the key is absent. -/
def jget (fs : List (String × JVal)) (k : String) : Except PyErr JVal :=
  match lookupJ fs k with
  | some v => .ok v
  | none => .error .keyError

def asStr : JVal → Except PyErr String
  | .jstr s => .ok s
  | _ => .error .typeError

def asInt : JVal → Except PyErr Int
  | .jint n => .ok n
  | _ => .error .typeError

def asStrList : JVal → Except PyErr (List String)
  | .jarr items => items.mapM asStr
  | _ => .error .typeError

def asBoolList : JVal → Except PyErr (List Bool)
  | .jarr items =>
      items.mapM (fun v =>
        match v with
        | .jbool b => .ok b
        | _ => .error .typeError)
  | _ => .error .typeError

/-- `_to_json` of a node: a section serializes its child mapping
recursively; each block kind serializes its fields under the key names
of the source (`text`; `code`/`language`; `image_path`/`caption`;
`table`/`columns`/`rows`; `items` — the list marker is not serialized;
`link`/`text`; `text_list`/`checked`).  Fuelled for the nested
recursion; any fuel above the tree depth is enough. -/
def nodeToJson (fuel : Nat) (nd : Node) : JVal :=
  match fuel with
  | 0 => .jnull
  | fuel + 1 =>
      match nd with
      | .nsec _ _ _ ch =>
          .jobj (ch.map (fun p => (p.1, nodeToJson fuel p.2)))
      | .ntext _ t => .jobj [("text", .jstr t)]
      | .ncode _ c lang =>
          .jobj [("code", .jstr c), ("language", .jstr lang)]
      | .nimage _ src cap =>
          .jobj [("image_path", .jstr src), ("caption", .jstr cap)]
      | .ntable _ cells c r =>
          .jobj [("table", .jarr (cells.map JVal.jstr)),
                 ("columns", .jint c), ("rows", .jint r)]
      | .nlist _ items _ => .jobj [("items", .jarr (items.map JVal.jstr))]
      | .nlink _ url t => .jobj [("link", .jstr url), ("text", .jstr t)]
      | .ncheckbox _ items cks =>
          .jobj [("text_list", .jarr (items.map JVal.jstr)),
                 ("checked", .jarr (cks.map JVal.jbool))]

/-- `MDGenerator._to_json`: the reserved `MDG_Settings` entry (save
path, file name, title, author, dpi, header registry) followed by one
entry per root child.  Fuelled like `nodeToJson`. -/
def docToJson (fuel : Nat) (d : Doc) : JVal :=
  .jobj (("MDG_Settings",
          .jobj [("save_path", .jstr d.ctx.savePath),
                 ("file_name", .jstr d.fileName),
                 ("title", .jstr d.title),
                 ("author", .jstr d.author),
                 ("dpi",
                  match d.ctx.dpi with
                  | none => .jnull
                  | some n => .jint n),
                 ("section_headers", .jarr (d.ctx.hdrs.map JVal.jstr))])
         :: d.children.map (fun p => (p.1, nodeToJson fuel p.2)))

/-- Replace the node at an address inside a child mapping. -/
def setAtL (ch : List (String × Node)) (addr : List String) (new : Node) :
    List (String × Node) :=
  match addr with
  | [] => ch
  | [k] => setC ch k new
  | k :: rest =>
      match lookupC ch k with
      | some (Node.nsec h l c ch2) =>
          setC ch k (Node.nsec h l c (setAtL ch2 rest new))
      | _ => ch

/-- Read the node at an address inside a node. -/
def getAtNode (nd : Node) : List String → Option Node
  | [] => some nd
  | s :: rest =>
      match nd with
      | Node.nsec _ _ _ ch =>
          match lookupC ch s with
          | some sub => getAtNode sub rest
          | none => none
      | _ => none

/-- Replace the node at an address inside a node. -/
def setAtNode (nd : Node) (addr : List String) (new : Node) : Node :=
  match addr with
  | [] => new
  | s :: rest =>
      match nd with
      | Node.nsec h l c ch =>
          match lookupC ch s with
          | some sub => Node.nsec h l c (setC ch s (setAtNode sub rest new))
          | none => nd
      | _ => nd

/-- `Section._from_json`: compute the keys of registered descendant
paths relative to this section (`x.replace(location + "/", "")` over
the registry — a replace-all, as in the source), then walk the record's
entries in order: an entry whose key is such a relative header is a
subsection handled recursively through the vivifying `self[key]`; any
other entry must be a single-block record dispatched on its first key
(`text`, `code`, `image_path`, `table`, `items`, `link`, `text_list`)
to the matching `Section.add_*`; an unrecognized first key is silently
skipped; a non-record value is a `ValueError`.  Fuelled on the JSON
nesting depth. -/
def secFromJson : Nat → Ctx → Node → JVal → Except PyErr (Ctx × Node)
  | 0, _, _, _ => .error .typeError
  | fuel + 1, ctx, nd, j =>
      match nd with
      | Node.nsec h l _ _ =>
          match j with
          | .jobj fields =>
              let loc := headerLocation h l
              let relHdrs := ctx.hdrs.filterMap (fun x =>
                if startsWithL x.data (loc ++ "/").data then
                  some (pyReplaceAll x (loc ++ "/"))
                else none)
              fields.foldl (fun acc kv =>
                match acc with
                | .error e => .error e
                | .ok (ctx, nd) =>
                    let key := kv.1
                    let value := kv.2
                    if relHdrs.contains key then
                      match secGetitem ctx.hdrs nd key with
                      | .error e => .error e
                      | .ok (hdrs', nd', addr) =>
                          match getAtNode nd' addr with
                          | none => .error .keyError
                          | some child =>
                              match secFromJson fuel
                                  { ctx with hdrs := hdrs' } child value with
                              | .error e => .error e
                              | .ok (ctx2, child') =>
                                  .ok (ctx2, setAtNode nd' addr child')
                    else
                      match value with
                      | .jobj fs =>
                          match fs.head? with
                          | none => .error .indexError
                          | some (vt, _) =>
                              match nd with
                              | Node.nsec h l ctr ch =>
                                  if vt = "text" then
                                    match jget fs "text" with
                                    | .error e => .error e
                                    | .ok v =>
                                        match asStr v with
                                        | .error e => .error e
                                        | .ok t =>
                                            let a :=
                                              secAddText ctx h l ctr ch t
                                            .ok (a.1,
                                                 Node.nsec h l a.2.1 a.2.2.1)
                                  else if vt = "code" then
                                    match jget fs "code" with
                                    | .error e => .error e
                                    | .ok v =>
                                        match asStr v with
                                        | .error e => .error e
                                        | .ok c =>
                                            match jget fs "language" with
                                            | .error e => .error e
                                            | .ok vl =>
                                                match asStr vl with
                                                | .error e => .error e
                                                | .ok lang =>
                                                    let a := secAddCode ctx
                                                      h l ctr ch c lang
                                                    .ok (a.1,
                                                         Node.nsec h l a.2.1
                                                           a.2.2.1)
                                  else if vt = "image_path" then
                                    match jget fs "image_path" with
                                    | .error e => .error e
                                    | .ok v =>
                                        match asStr v with
                                        | .error e => .error e
                                        | .ok src =>
                                            match jget fs "caption" with
                                            | .error e => .error e
                                            | .ok vc =>
                                                match asStr vc with
                                                | .error e => .error e
                                                | .ok cap =>
                                                    let a := secAddImage ctx
                                                      h l ctr ch (.pstr src)
                                                      (some cap)
                                                    .ok (a.1,
                                                         Node.nsec h l a.2.1
                                                           a.2.2.1)
                                  else if vt = "table" then
                                    match jget fs "table" with
                                    | .error e => .error e
                                    | .ok v =>
                                        match asStrList v with
                                        | .error e => .error e
                                        | .ok cells =>
                                            match jget fs "columns" with
                                            | .error e => .error e
                                            | .ok vc =>
                                                match asInt vc with
                                                | .error e => .error e
                                                | .ok cNum =>
                                                    match jget fs "rows" with
                                                    | .error e => .error e
                                                    | .ok vr =>
                                                        match asInt vr with
                                                        | .error e =>
                                                            .error e
                                                        | .ok rNum =>
                                                            match
                                                              secAddTable ctx
                                                                h l ctr ch
                                                                (.tlist cells)
                                                                (some cNum)
                                                                (some rNum)
                                                              with
                                                            | .error e =>
                                                                .error e
                                                            | .ok a =>
                                                                .ok (a.1,
                                                                  Node.nsec
                                                                    h l a.2.1
                                                                    a.2.2.1)
                                  else if vt = "items" then
                                    match jget fs "items" with
                                    | .error e => .error e
                                    | .ok v =>
                                        match asStrList v with
                                        | .error e => .error e
                                        | .ok items =>
                                            let a := secAddList ctx h l ctr
                                              ch items "-"
                                            .ok (a.1,
                                                 Node.nsec h l a.2.1 a.2.2.1)
                                  else if vt = "link" then
                                    match jget fs "link" with
                                    | .error e => .error e
                                    | .ok v =>
                                        match asStr v with
                                        | .error e => .error e
                                        | .ok url =>
                                            match jget fs "text" with
                                            | .error e => .error e
                                            | .ok vt2 =>
                                                match asStr vt2 with
                                                | .error e => .error e
                                                | .ok t =>
                                                    let a := secAddLink ctx
                                                      h l ctr ch url (some t)
                                                    .ok (a.1,
                                                         Node.nsec h l a.2.1
                                                           a.2.2.1)
                                  else if vt = "text_list" then
                                    match jget fs "text_list" with
                                    | .error e => .error e
                                    | .ok v =>
                                        match asStrList v with
                                        | .error e => .error e
                                        | .ok items =>
                                            match jget fs "checked" with
                                            | .error e => .error e
                                            | .ok vc =>
                                                match asBoolList vc with
                                                | .error e => .error e
                                                | .ok cks =>
                                                    match secAddCheckbox ctx
                                                        h l ctr ch items
                                                        (.clist cks) with
                                                    | .error e => .error e
                                                    | .ok a =>
                                                        .ok (a.1,
                                                          Node.nsec h l a.2.1
                                                            a.2.2.1)
                                  else .ok (ctx, nd)
                              | _ => .error .typeError
                      | _ => .error .valueError)
                (.ok (ctx, nd))
          | _ => .error .typeError
      | _ => .error .typeError

/-- `MDGenerator.load_json` (the file read aside): reset the settings
from the record's `MDG_Settings` entry (including the header registry),
then walk the remaining entries in order: a key present in the (current)
header registry is a section, handled by `self[key]._from_json(value)`
through the vivifying root `__getitem__`; otherwise a block record is
dispatched on its first key — but against the names `text`, `code`,
`image`, `table`, `list`, `link`, `checkbox`, of which has
`image`/`list`/`checkbox` never occur in serialized output (blocks
serialize as `image_path`/`items`/`text_list`), so those records are
silently skipped by the final no-op branch; a non-record value is a
`ValueError`.  Fuelled on the JSON nesting depth. -/
def mdLoadJson (fuel : Nat) (d : Doc) (j : JVal) : Except PyErr Doc :=
  match j with
  | .jobj fields =>
      match jget fields "MDG_Settings" with
      | .error e => .error e
      | .ok settings =>
          match settings with
          | .jobj sf => do
              let sp ← asStr (← jget sf "save_path")
              let fn ← asStr (← jget sf "file_name")
              let ti ← asStr (← jget sf "title")
              let au ← asStr (← jget sf "author")
              let dpi ←
                (match (← jget sf "dpi") with
                 | .jnull => .ok none
                 | .jint n => .ok (some n)
                 | _ => .error .typeError :
                   Except PyErr (Option Int))
              let hs ← asStrList (← jget sf "section_headers")
              let d0 : Doc :=
                { d with
                    children := d.children
                    ctx := { d.ctx with savePath := sp, hdrs := hs, dpi := dpi }
                    fileName := fn
                    title := ti
                    author := au }
              fields.foldl (fun acc kv =>
                match acc with
                | .error e => .error e
                | .ok d =>
                    let key := kv.1
                    let value := kv.2
                    if key = "MDG_Settings" then .ok d
                    else if d.ctx.hdrs.contains key then
                      match mdGetitem d key with
                      | .error e => .error e
                      | .ok (d', addr) =>
                          match getAtL d'.children addr with
                          | none => .error .keyError
                          | some nd =>
                              match secFromJson fuel d'.ctx nd value with
                              | .error e => .error e
                              | .ok (ctx2, nd') =>
                                  .ok { d' with
                                          children :=
                                            setAtL d'.children addr nd'
                                          ctx := ctx2 }
                    else
                      match value with
                      | .jobj fs =>
                          match fs.head? with
                          | none => .error .indexError
                          | some (vt, _) =>
                              if vt = "text" then do
                                let t ← asStr (← jget fs "text")
                                let r ← mdAddText d none t
                                .ok r.1
                              else if vt = "code" then do
                                let c ← asStr (← jget fs "code")
                                let lang ← asStr (← jget fs "language")
                                let r ← mdAddCode d none c lang
                                .ok r.1
                              else if vt = "image" then do
                                let src ← asStr (← jget fs "image")
                                let cap ← asStr (← jget fs "caption")
                                let r ← mdAddImage d none (.pstr src)
                                  (some cap)
                                .ok r.1
                              else if vt = "table" then do
                                let cells ← asStrList (← jget fs "table")
                                let cNum ← asInt (← jget fs "columns")
                                let rNum ← asInt (← jget fs "rows")
                                let r ← mdAddTable d none (.tlist cells)
                                  (some cNum) (some rNum)
                                .ok r.1
                              else if vt = "list" then do
                                let items ← asStrList (← jget fs "list")
                                let r ← mdAddList d none items
                                .ok r.1
                              else if vt = "link" then do
                                let url ← asStr (← jget fs "link")
                                let t ← asStr (← jget fs "text")
                                let r ← mdAddLink d none url (some t)
                                .ok r.1
                              else if vt = "checkbox" then do
                                let items ← asStrList
                                  (← jget fs "text_list")
                                let cks ← asBoolList (← jget fs "checked")
                                let r ← mdAddCheckbox d none items
                                  (.clist cks)
                                .ok r.1
                              else .ok d
                      | _ => .error .valueError)
                (.ok d0)
          | _ => .error .typeError
  | _ => .error .typeError

/-- A freshly constructed document,
`MDGenerator("example", title="Generated Markdown", author="Author")`:
empty mapping, zero counters, empty header registry. -/
def freshDoc : Doc :=
  { children := []
    ctr := Counters.zero
    ctx := { hdrs := [], stc := Counters.zero, savePath := "example",
             dpi := none, baseName := "GeneratedMD" }
    fileName := "GeneratedMD"
    title := "Generated Markdown"
    author := "Author" }

/-! ## Basic lemmas about the dict and split primitives -/

theorem lookupC_setC_self (m : List (String × Node)) (k : String) (v : Node) :
    lookupC (setC m k v) k = some v := by
  induction m with
  | nil => simp [setC, lookupC]
  | cons p rest ih =>
      obtain ⟨k', v'⟩ := p
      by_cases h : k' = k
      · simp [setC, lookupC, h]
      · simp [setC, lookupC, h, ih]

theorem lookupC_setC_ne (m : List (String × Node)) (k k' : String) (v : Node)
    (h : k' ≠ k) : lookupC (setC m k v) k' = lookupC m k' := by
  have h' : k ≠ k' := fun hh => h hh.symm
  induction m with
  | nil =>
      simp only [setC, lookupC]
      rw [if_neg h']
  | cons p rest ih =>
      obtain ⟨k0, v0⟩ := p
      by_cases h0 : k0 = k
      · subst h0
        simp only [setC, if_pos rfl, lookupC]
        rw [if_neg h', if_neg h']
      · simp only [setC, if_neg h0, lookupC]
        by_cases h1 : k0 = k'
        · simp [h1]
        · simp [h1, ih]

theorem setC_setC (m : List (String × Node)) (k : String) (v w : Node) :
    setC (setC m k v) k w = setC m k w := by
  induction m with
  | nil => simp [setC]
  | cons p rest ih =>
      obtain ⟨k0, v0⟩ := p
      by_cases h0 : k0 = k
      · simp [setC, h0]
      · simp [setC, h0, ih]

theorem splitAux_ne_nil (cs : List Char) (acc : List Char) :
    splitAux cs acc ≠ [] := by
  induction cs generalizing acc with
  | nil => simp [splitAux]
  | cons c rest ih =>
      by_cases h : c = '/'
      · simp [splitAux, h]
      · simpa [splitAux, h] using ih (c :: acc)

theorem splitAux_no_slash (cs : List Char) (acc : List Char)
    (h : '/' ∉ cs) : splitAux cs acc = [String.mk (acc.reverse ++ cs)] := by
  induction cs generalizing acc with
  | nil => simp [splitAux]
  | cons c rest ih =>
      have hc : c ≠ '/' := fun hh => h (hh ▸ List.mem_cons_self c rest)
      have hrest : '/' ∉ rest := fun hh => h (List.mem_cons_of_mem c hh)
      simp [splitAux, hc, ih (c :: acc) hrest]

theorem splitAux_append_slash (cs : List Char) (acc ys : List Char)
    (h : '/' ∉ cs) :
    splitAux (cs ++ '/' :: ys) acc =
      String.mk (acc.reverse ++ cs) :: splitAux ys [] := by
  induction cs generalizing acc with
  | nil => simp [splitAux]
  | cons c rest ih =>
      have hc : c ≠ '/' := fun hh => h (hh ▸ List.mem_cons_self c rest)
      have hrest : '/' ∉ rest := fun hh => h (List.mem_cons_of_mem c hh)
      simp [splitAux, hc, ih (c :: acc) hrest]

/-! ## Resolution lemmas -/

theorem segsOk_fresh (rest : List String) (h l : String) (c : Counters) :
    segsOk (Node.nsec h l c []) rest = true := by
  cases rest <;> simp [segsOk, lookupC]

theorem resolveSegs_idem (segs : List String) :
    ∀ (hdrs : List String) (nd : Node)
      (r : List String × Node × List String),
      resolveSegs hdrs nd segs = .ok r →
      resolveSegs r.1 r.2.1 segs = .ok r := by
  induction segs with
  | nil =>
      intro hdrs nd r h
      simp only [resolveSegs] at h
      cases h
      simp [resolveSegs]
  | cons s rest ih =>
      intro hdrs nd r h
      cases nd with
      | nsec h0 l0 c0 ch0 =>
          simp only [resolveSegs] at h
          cases hrec : resolveSegs (secGet1 hdrs (headerLocation h0 l0) ch0 s).1
              (secGet1 hdrs (headerLocation h0 l0) ch0 s).2.2 rest with
          | error e => rw [hrec] at h; cases h
          | ok r1 =>
              obtain ⟨h1, c1, a1⟩ := r1
              rw [hrec] at h
              cases h
              simp only [resolveSegs, secGet1, lookupC_setC_self]
              have ih' := ih _ _ _ hrec
              simp only at ih'
              rw [ih']
              simp [setC_setC]
      | ntext loc b => simp [resolveSegs] at h
      | ncode loc b lang => simp [resolveSegs] at h
      | nimage loc src cap => simp [resolveSegs] at h
      | ntable loc cells c r' => simp [resolveSegs] at h
      | nlist loc items m => simp [resolveSegs] at h
      | nlink loc url t => simp [resolveSegs] at h
      | ncheckbox loc items cks => simp [resolveSegs] at h
theorem resolveSegs_isOk (segs : List String) :
    ∀ (hdrs : List String) (nd : Node),
      isOkE (resolveSegs hdrs nd segs) = segsOk nd segs := by
  induction segs with
  | nil => intro hdrs nd; simp [resolveSegs, segsOk, isOkE]
  | cons s rest ih =>
      intro hdrs nd
      cases nd with
      | nsec h0 l0 c0 ch0 =>
          simp only [resolveSegs, segsOk]
          cases hl : lookupC ch0 s with
          | some child =>
              simp only [secGet1, hl]
              cases hrec : resolveSegs hdrs child rest with
              | error e =>
                  have hh := ih hdrs child
                  rw [hrec] at hh
                  simp [isOkE, ← hh]
              | ok r1 =>
                  obtain ⟨h1, c1, a1⟩ := r1
                  have hh := ih hdrs child
                  rw [hrec] at hh
                  simp [isOkE, ← hh]
          | none =>
              simp only [secGet1, hl, mkSection]
              cases hrec : resolveSegs (hdrs ++ [headerLocation s
                  (headerLocation h0 l0)])
                  (Node.nsec s (headerLocation h0 l0) Counters.zero [])
                  rest with
              | error e =>
                  have hh := ih (hdrs ++ [headerLocation s
                    (headerLocation h0 l0)])
                    (Node.nsec s (headerLocation h0 l0) Counters.zero [])
                  rw [hrec, segsOk_fresh] at hh
                  simp [isOkE] at hh
              | ok r1 =>
                  obtain ⟨h1, c1, a1⟩ := r1
                  simp [isOkE]
      | ntext loc b => simp [resolveSegs, segsOk, isOkE]
      | ncode loc b lang => simp [resolveSegs, segsOk, isOkE]
      | nimage loc src cap => simp [resolveSegs, segsOk, isOkE]
      | ntable loc cells c r' => simp [resolveSegs, segsOk, isOkE]
      | nlist loc items m => simp [resolveSegs, segsOk, isOkE]
      | nlink loc url t => simp [resolveSegs, segsOk, isOkE]
      | ncheckbox loc items cks => simp [resolveSegs, segsOk, isOkE]

theorem mdGetitem_isOk (d : Doc) (p : String) :
    isOkE (mdGetitem d p) = rootOk d p := by
  cases hdata : p.data with
  | nil => simp [mdGetitem, rootOk, hdata, isOkE]
  | cons c cs =>
      simp only [mdGetitem, rootOk, hdata]
      cases hsplit : splitAux (if c = '/' then cs else c :: cs) [] with
      | nil => simp [isOkE]
      | cons s rest =>
          cases rest with
          | nil =>
              simp only
              cases hl : lookupC d.children s with
              | some nd => simp [rootGet1, hl, isOkE]
              | none =>
                  by_cases hs : s = ""
                  · subst hs
                    simp [rootGet1, hl, isOkE]
                  · simp [rootGet1, hl, hs, isOkE, mkSection]
          | cons s2 rest2 =>
              dsimp only
              by_cases hs : s = ""
              · subst hs
                simp [isOkE]
              · rw [if_neg hs]
                cases hl : lookupC d.children s with
                | some child =>
                    have hok := resolveSegs_isOk (s2 :: rest2) d.ctx.hdrs child
                    simp only [rootGet1, hl]
                    cases hrec : resolveSegs d.ctx.hdrs child (s2 :: rest2) with
                    | error e =>
                        rw [hrec] at hok
                        simp [hs, hl, isOkE, ← hok]
                    | ok r1 =>
                        obtain ⟨h1, c1, a1⟩ := r1
                        rw [hrec] at hok
                        simp [hs, hl, isOkE, ← hok]
                | none =>
                    simp only [rootGet1, hl, mkSection]
                    have hok := resolveSegs_isOk (s2 :: rest2)
                      (d.ctx.hdrs ++ [headerLocation s ""])
                      (Node.nsec s "" Counters.zero [])
                    rw [segsOk_fresh] at hok
                    cases hrec : resolveSegs (d.ctx.hdrs ++ [headerLocation s ""])
                        (Node.nsec s "" Counters.zero []) (s2 :: rest2) with
                    | error e =>
                        rw [hrec] at hok
                        simp [isOkE] at hok
                    | ok r1 =>
                        obtain ⟨h1, c1, a1⟩ := r1
                        simp [hs, hl, hrec, isOkE]

theorem mdGetitem_idem (d : Doc) (p : String) (r : Doc × List String)
    (h : mdGetitem d p = .ok r) : mdGetitem r.1 p = .ok r := by
  cases hdata : p.data with
  | nil => simp [mdGetitem, hdata] at h
  | cons c cs =>
      simp only [mdGetitem, hdata] at h ⊢
      cases hsplit : splitAux (if c = '/' then cs else c :: cs) [] with
      | nil => rw [hsplit] at h; cases h
      | cons s rest =>
          rw [hsplit] at h
          cases rest with
          | nil =>
              dsimp only at h ⊢
              cases hl : lookupC d.children s with
              | some nd =>
                  simp only [rootGet1, hl] at h
                  cases h
                  simp only [rootGet1]
                  rw [hl]
              | none =>
                  by_cases hs : s = ""
                  · subst hs
                    simp only [rootGet1, hl] at h
                    cases h
                  · simp only [rootGet1, hl, mkSection, if_neg hs] at h
                    cases h
                    simp only [rootGet1, lookupC_setC_self]
          | cons s2 rest2 =>
              dsimp only at h ⊢
              by_cases hs : s = ""
              · rw [if_pos hs] at h; cases h
              · rw [if_neg hs] at h ⊢
                cases hl : lookupC d.children s with
                | some child =>
                    simp only [rootGet1, hl] at h
                    cases hrec : resolveSegs d.ctx.hdrs child (s2 :: rest2) with
                    | error e => rw [hrec] at h; cases h
                    | ok r1 =>
                        obtain ⟨h1, c1, a1⟩ := r1
                        rw [hrec] at h
                        cases h
                        simp only [rootGet1, lookupC_setC_self]
                        rw [resolveSegs_idem _ _ _ _ hrec]
                        simp [setC_setC]
                | none =>
                    simp only [rootGet1, hl, mkSection, if_neg hs] at h
                    cases hrec : resolveSegs (d.ctx.hdrs ++ [headerLocation s ""])
                        (Node.nsec s "" Counters.zero []) (s2 :: rest2) with
                    | error e => rw [hrec] at h; cases h
                    | ok r1 =>
                        obtain ⟨h1, c1, a1⟩ := r1
                        rw [hrec] at h
                        cases h
                        simp only [rootGet1, lookupC_setC_self]
                        rw [resolveSegs_idem _ _ _ _ hrec]
                        simp [setC_setC]

theorem mk_data (s : String) : String.mk s.data = s := rfl

theorem splitAux_data_no_slash (s : String) (h : '/' ∉ s.data) :
    splitAux s.data [] = [s] := by
  rw [splitAux_no_slash s.data [] h]
  simp [mk_data]

/-! ## Observation helpers for the concrete test vectors -/

/-- The document after resolving a path (unchanged on failure). -/
def docAfterGet (d : Doc) (p : String) : Doc :=
  match mdGetitem d p with
  | .ok (d', _) => d'
  | .error _ => d

/-- The child keys of the section at an address (root for `[]`). -/
def childKeysAt (d : Doc) (addr : List String) : List String :=
  match addr with
  | [] => d.children.map Prod.fst
  | _ =>
      match getAtL d.children addr with
      | some (Node.nsec _ _ _ ch) => ch.map Prod.fst
      | _ => []

/-! ## Claim C1 -/

/-- C1 (counterexample): resolving does not "never fail" — at the
document root, `MDGenerator.__getitem__("")` hits the unguarded
`key[0]` (`IndexError`), and `MDGenerator.__getitem__("/")` strips to
the empty key whose vivifying `self[""] = …` hits the same unguarded
`key[0]` inside `__setitem__`. -/
theorem c1_counterexample :
    mdGetitem freshDoc "" = .error .indexError ∧
    mdGetitem freshDoc "/" = .error .indexError := ⟨rfl, rfl⟩

/-- C1 (amended): resolution at the document root succeeds exactly when
the path is nonempty, its first segment is nonempty or already present,
and no existing content block is traversed before the final segment
(`rootOk` is that decidable test; the failures are `IndexError` at the
root's unguarded `key[0]` accesses and `TypeError` for subscripting a
block); and resolution is idempotent: whenever it succeeds — at the
root or on any section — resolving the same path again returns the
very same document/tree, header registry, and node address, creating
nothing new. -/
theorem c1_resolution :
    (∀ (d : Doc) (p : String), isOkE (mdGetitem d p) = rootOk d p) ∧
    (∀ (d : Doc) (p : String) (r : Doc × List String),
       mdGetitem d p = .ok r → mdGetitem r.1 p = .ok r) ∧
    (∀ (hdrs : List String) (nd : Node) (key : String)
       (r : List String × Node × List String),
       secGetitem hdrs nd key = .ok r → secGetitem r.1 r.2.1 key = .ok r) :=
  ⟨mdGetitem_isOk, mdGetitem_idem,
   fun _ _ key r h => resolveSegs_idem (pySplit (pyStripSlash key)) _ _ r h⟩

/-- The document produced by resolving `"A/B"` on a fresh document. -/
def c1doc : Doc := docAfterGet freshDoc "A/B"

/-- The result of a section-level resolution of `"B"` on a fresh
section `"A"`. -/
def c1sec : List String × Node × List String :=
  match secGetitem [] (Node.nsec "A" "" Counters.zero []) "B" with
  | .ok r => r
  | .error _ => ([], Node.ntext none "", [])

theorem c1_resolution_witness :
    (isOkE (mdGetitem freshDoc "A/B") = rootOk freshDoc "A/B") ∧
    mdGetitem c1doc "A/B" = .ok (c1doc, ["A", "B"]) ∧
    secGetitem c1sec.1 c1sec.2.1 "B" = .ok c1sec :=
  ⟨c1_resolution.1 freshDoc "A/B",
   c1_resolution.2.1 freshDoc "A/B" (c1doc, ["A", "B"]) (by rfl),
   c1_resolution.2.2 [] (Node.nsec "A" "" Counters.zero []) "B" c1sec
     (by rfl)⟩

/-! ## Claim C2 -/

/-- Render the node at an address of a document. -/
def renderAt (fuel : Nat) (d : Doc) (addr : List String) : List MdEvent :=
  match getAtL d.children addr with
  | some nd => renderNode fuel nd 1
  | none => []

/-- The document after
`add_text("S","a"); add_code("S","b"); add_text("S","c")` on a fresh
`MDGenerator`. -/
def c2doc : Doc :=
  match mdAddText freshDoc (some "S") "a" with
  | .error _ => freshDoc
  | .ok (d1, _) =>
      match mdAddCode d1 (some "S") "b" "python" with
      | .error _ => freshDoc
      | .ok (d2, _) =>
          match mdAddText d2 (some "S") "c" with
          | .error _ => freshDoc
          | .ok (d3, _) => d3

/-- C2 (evaluation at the failing input): after
`add_text("S","a"); add_code("S","b"); add_text("S","c")`, section `S`
holds only two blocks — the third call re-used the synthetic key
`text0` (`Section.get_section_name` reads the section counter that the
`MDGenerator.add_text` path never increments) and overwrote `"a"` in
place — so rendering emits the paragraph `"c"` and then the code block
`"b"`, not `a, b, c`. -/
theorem c2_eval :
    childKeysAt c2doc ["S"] = ["text0", "code0"] ∧
    renderAt 10 c2doc ["S"] =
      [MdEvent.hdr 1 "S", MdEvent.nl, MdEvent.para "c", MdEvent.nl,
       MdEvent.codeB "b" "python", MdEvent.nl] ∧
    c2doc.ctr.text = 2 :=
  ⟨rfl, rfl, rfl⟩

/-! ## Claim C3 -/

/-- A fresh document holding one root-level anonymous list block,
`mdGen.add_list(None, ["x"])`. -/
def c3origDoc : Doc :=
  match mdAddList freshDoc none ["x"] with
  | .ok (d, _) => d
  | .error _ => freshDoc

/-- The root child keys after serializing `c3origDoc` and deserializing
into a fresh document. -/
def c3loadedKeys : List String :=
  match mdLoadJson 20 freshDoc (docToJson 20 c3origDoc) with
  | .ok d2 => d2.children.map Prod.fst
  | .error _ => ["load-error"]

/-- C3 (evaluation at the failing input): the original document holds
the list block under `list0`; its serialization tags the block `items`
(the `ListSection._to_json` key), but `load_json` dispatches root-level
records against `"list"` — so the reconstructed document is empty: the
round trip silently drops the block. -/
theorem c3_eval :
    c3origDoc.children = [("list0", Node.nlist none ["x"] "-")] ∧
    c3loadedKeys = [] :=
  ⟨rfl, rfl⟩

/-! ## Claim C7 -/

/-- C7 (evaluation at the failing input): `Section.is_valid` iterates
over the `UserDict` keys and unpacks each key string into the two loop
variables, so a section with any child crashes — `ValueError` for the
synthetic key `text0` (length 5), `AttributeError` for a two-character
key — instead of recursing; only the per-block predicates behave (a
`CodeSection` is invalid exactly on an empty body, all other kinds are
always valid). -/
theorem c7_eval :
    secIsValidChildren [("text0", Node.ntext none "hi")] =
      .error .valueError ∧
    secIsValidChildren [("ab", Node.ntext none "hi")] =
      .error .attributeError ∧
    nodeIsValid (Node.nsec "S" "" Counters.zero
      [("text0", Node.ntext none "hi")]) = .error .valueError ∧
    nodeIsValid (Node.nsec "S" "" Counters.zero []) = .ok true ∧
    nodeIsValid (Node.ncode none "" "python") = .ok false ∧
    nodeIsValid (Node.ncode none "x" "python") = .ok true ∧
    nodeIsValid (Node.ntext none "") = .ok true ∧
    nodeIsValid (Node.ncheckbox none [] []) = .ok true :=
  ⟨rfl, rfl, rfl, rfl, rfl, rfl, rfl, rfl⟩

/-! ## Claim C4 -/

/-- C4 (counterexample): resolving `"A//B"` on a fresh document does
not behave like `"A/B"` — the empty segment creates and descends into a
distinct child section named `""` under `A` (registered as `"A/"`),
whereas `"A/B"` creates `B` directly under `A`. -/
theorem c4_counterexample :
    childKeysAt (docAfterGet freshDoc "A//B") ["A"] = [""] ∧
    childKeysAt (docAfterGet freshDoc "A//B") ["A", ""] = ["B"] ∧
    childKeysAt (docAfterGet freshDoc "A/B") ["A"] = ["B"] ∧
    (docAfterGet freshDoc "A//B").ctx.hdrs = ["A", "A/", "A//B"] ∧
    (docAfterGet freshDoc "A/B").ctx.hdrs = ["A", "A/B"] :=
  ⟨rfl, rfl, rfl, rfl, rfl⟩

/-- C4 (amended): an empty path segment is not collapsed by
`__getitem__`: for all slash-free nonempty names `a` and `b` and every
document, resolving `a ++ "//" ++ b` resolves the three-segment
sequence `[a, "", b]` — the empty segment is a vivifying descent into a
child section named `""` — rather than the two segments of
`a ++ "/" ++ b`. -/
theorem c4_empty_segment (a b : String) (d : Doc) (ha : a ≠ "")
    (hsa : '/' ∉ a.data) (hsb : '/' ∉ b.data) :
    mdGetitem d (a ++ "//" ++ b) =
      match rootGet1 d.ctx.hdrs d.children a with
      | .error e => .error e
      | .ok (hdrs', children', child) =>
          match resolveSegs hdrs' child ["", b] with
          | .error e => .error e
          | .ok (hdrs'', child', addr) =>
              .ok ({ d with
                       children := setC children' a child'
                       ctx := { d.ctx with hdrs := hdrs'' } },
                   a :: addr) := by
  have hdata : (a ++ "//" ++ b).data = a.data ++ '/' :: '/' :: b.data := by
    simp [String.data_append]
  have hane : a.data ≠ [] := by
    intro hn
    exact ha (String.ext hn)
  obtain ⟨c, cs, hac⟩ := List.exists_cons_of_ne_nil hane
  have hc : c ≠ '/' := by
    intro hh
    exact hsa (by rw [hac, hh]; exact List.mem_cons_self _ _)
  have hsplit : splitAux (a.data ++ '/' :: '/' :: b.data) [] =
      [a, "", b] := by
    rw [splitAux_append_slash a.data [] ('/' :: b.data) hsa]
    simp only [List.reverse_nil, List.nil_append, mk_data]
    rw [splitAux]
    simp only [if_pos rfl, List.reverse_nil]
    rw [splitAux_data_no_slash b hsb]
    rfl
  rw [hac] at hsplit
  simp only [mdGetitem, hdata, hac, List.cons_append]
  rw [if_neg hc]
  have hsplit2 : splitAux (c :: (cs ++ '/' :: '/' :: b.data)) [] =
      [a, "", b] := by
    rw [← List.cons_append]
    exact hsplit
  rw [hsplit2]
  dsimp only
  rw [if_neg ha]

theorem c4_empty_segment_witness :
    mdGetitem freshDoc ("A" ++ "//" ++ "B") =
      match rootGet1 freshDoc.ctx.hdrs freshDoc.children "A" with
      | .error e => .error e
      | .ok (hdrs', children', child) =>
          match resolveSegs hdrs' child ["", "B"] with
          | .error e => .error e
          | .ok (hdrs'', child', addr) =>
              .ok ({ freshDoc with
                       children := setC children' "A" child'
                       ctx := { freshDoc.ctx with hdrs := hdrs'' } },
                   "A" :: addr) :=
  c4_empty_segment "A" "B" freshDoc (by decide) (by decide) (by decide)

/-! ## Claim C5 -/

/-- C5: the table shape invariant.  `Section.add_table` on an explicit
cell list with explicit counts succeeds — storing the `TableSection`
under the synthetic `tableN` key and bumping the counters — exactly
when `columns * rows == len(cells)`, and raises the construction
`ValueError` otherwise; `MDGenerator.add_table` performs the same check
before attaching. -/
theorem c5_table_shape :
    (∀ (ctx : Ctx) (h l : String) (ctr : Counters)
       (ch : List (String × Node)) (cells : List String) (c r : Int),
       c * r = (cells.length : Int) →
       secAddTable ctx h l ctr ch (.tlist cells) (some c) (some r) =
         .ok ({ ctx with
                  stc := { ctx.stc with table := ctx.stc.table + 1 } },
              { ctr with table := ctr.table + 1 },
              setC ch ("table" ++ toString ctr.table)
                (Node.ntable (some (headerLocation h l)) cells c r),
              Node.ntable (some (headerLocation h l)) cells c r)) ∧
    (∀ (ctx : Ctx) (h l : String) (ctr : Counters)
       (ch : List (String × Node)) (cells : List String) (c r : Int),
       c * r ≠ (cells.length : Int) →
       secAddTable ctx h l ctr ch (.tlist cells) (some c) (some r) =
         .error .valueError) ∧
    (∀ (d : Doc) (hd : Option String) (cells : List String) (c r : Int),
       hd ≠ some "" → c * r ≠ (cells.length : Int) →
       mdAddTable d hd (.tlist cells) (some c) (some r) =
         .error .valueError) := by
  refine ⟨?_, ?_, ?_⟩
  · intro ctx h l ctr ch cells c r heq
    simp [secAddTable, secAddSectionNone, secGetSectionName, heq]
  · intro ctx h l ctr ch cells c r hne
    simp [secAddTable, hne]
  · intro d hd cells c r hhd hne
    cases hd with
    | none => simp [mdAddTable, hne]
    | some hdv =>
        have : hdv ≠ "" := fun hh => hhd (by rw [hh])
        simp [mdAddTable, this, hne]

/-- Both shapes of the spec's concrete test: `columns=3, rows=2` with a
5-cell list fails, with a 6-cell list succeeds. -/
theorem c5_table_shape_witness :
    secAddTable freshDoc.ctx "S" "" Counters.zero []
        (.tlist ["a", "b", "c", "d", "e"]) (some 3) (some 2) =
      .error .valueError ∧
    secAddTable freshDoc.ctx "S" "" Counters.zero []
        (.tlist ["a", "b", "c", "d", "e", "f"]) (some 3) (some 2) =
      .ok ({ freshDoc.ctx with
               stc := { freshDoc.ctx.stc with
                          table := freshDoc.ctx.stc.table + 1 } },
           { Counters.zero with table := 1 },
           setC [] ("table" ++ toString (0 : Nat))
             (Node.ntable (some "S") ["a", "b", "c", "d", "e", "f"] 3 2),
           Node.ntable (some "S") ["a", "b", "c", "d", "e", "f"] 3 2) ∧
    mdAddTable freshDoc (some "T")
        (.tlist ["a", "b", "c", "d", "e"]) (some 3) (some 2) =
      .error .valueError :=
  ⟨c5_table_shape.2.1 freshDoc.ctx "S" "" Counters.zero []
     ["a", "b", "c", "d", "e"] 3 2 (by decide),
   c5_table_shape.1 freshDoc.ctx "S" "" Counters.zero []
     ["a", "b", "c", "d", "e", "f"] 3 2 (by decide),
   c5_table_shape.2.2 freshDoc (some "T") ["a", "b", "c", "d", "e"] 3 2
     (by decide) (by decide)⟩

/-! ## Claim C6 -/

/-- C6: the checkbox construction rule of `CheckBoxSection.__init__`: a
single boolean is broadcast to every item (each entry of the resulting
`checked` list is that boolean); a list of exactly matching length is
kept as-is; any other length is the construction `ValueError`, which
`Section.add_checkbox` surfaces before attaching anything. -/
theorem c6_checkbox :
    (∀ (items : List String) (b : Bool),
       checkboxChecked items (.cbool b) =
         .ok (List.replicate items.length b)) ∧
    (∀ (items : List String) (l : List Bool), l.length = items.length →
       checkboxChecked items (.clist l) = .ok l) ∧
    (∀ (items : List String) (l : List Bool), l.length ≠ items.length →
       checkboxChecked items (.clist l) = .error .valueError) ∧
    (∀ (x : Bool) (n : Nat) (b : Bool), x ∈ List.replicate n b → x = b) ∧
    (∀ (ctx : Ctx) (h l : String) (ctr : Counters)
       (ch : List (String × Node)) (items : List String) (lst : List Bool),
       lst.length ≠ items.length →
       secAddCheckbox ctx h l ctr ch items (.clist lst) =
         .error .valueError) ∧
    (∀ (ctx : Ctx) (h l : String) (ctr : Counters)
       (ch : List (String × Node)) (items : List String) (b : Bool),
       secAddCheckbox ctx h l ctr ch items (.cbool b) =
         .ok ({ ctx with
                  stc := { ctx.stc with
                             checkbox := ctx.stc.checkbox + 1 } },
              { ctr with checkbox := ctr.checkbox + 1 },
              setC ch ("checkbox" ++ toString ctr.checkbox)
                (Node.ncheckbox (some (headerLocation h l)) items
                  (List.replicate items.length b)),
              Node.ncheckbox (some (headerLocation h l)) items
                (List.replicate items.length b))) := by
  refine ⟨?_, ?_, ?_, ?_, ?_, ?_⟩
  · intro items b
    simp [checkboxChecked]
  · intro items l hl
    simp [checkboxChecked, hl]
  · intro items l hl
    simp [checkboxChecked, hl]
  · intro x n b hx
    exact List.eq_of_mem_replicate hx
  · intro ctx h l ctr ch items lst hl
    simp [secAddCheckbox, checkboxChecked, hl]
  · intro ctx h l ctr ch items b
    simp [secAddCheckbox, checkboxChecked, secAddSectionNone,
      secGetSectionName]

/-- The spec's concrete checkbox tests: broadcast over three items,
per-item preservation over two, and the one-element mismatch failure. -/
theorem c6_checkbox_witness :
    checkboxChecked ["x", "y", "z"] (.cbool true) =
      .ok [true, true, true] ∧
    checkboxChecked ["x", "y"] (.clist [true, false]) =
      .ok [true, false] ∧
    checkboxChecked ["x", "y"] (.clist [true]) = .error .valueError ∧
    secAddCheckbox freshDoc.ctx "S" "" Counters.zero [] ["x", "y"]
        (.clist [true]) = .error .valueError :=
  ⟨c6_checkbox.1 ["x", "y", "z"] true,
   c6_checkbox.2.1 ["x", "y"] [true, false] (by decide),
   c6_checkbox.2.2.1 ["x", "y"] [true] (by decide),
   c6_checkbox.2.2.2.2.1 freshDoc.ctx "S" "" Counters.zero [] ["x", "y"]
     [true] (by decide)⟩

/-! ## Claim C10 -/

/-- C10 (counterexample): with an empty heading string the failure is
the heading guard's `IndexError` (from `heading[0]`), not the
unbound-local error the claim asserts for every path-string call. -/
theorem c10_counterexample :
    mdAddImage freshDoc (some "") (.pstr "img.png") none =
      .error .indexError ∧
    PyErr.indexError ≠ PyErr.unboundLocalError :=
  ⟨rfl, by decide⟩

/-- C10 (amended): `MDGenerator.add_image` with a path-string figure
never constructs the block — it raises `UnboundLocalError` at
`ImageSection(self.mdFile, heading, image_path, caption)` for every
heading except the empty string, where the heading guard's `heading[0]`
raises `IndexError` first; a path string is accepted only through
`Section.add_image`, which passes it through unchanged as the stored
block's source (caption defaulting to `""`). -/
theorem c10_image_path_string :
    (∀ (d : Doc) (hd : Option String) (s : String) (cap : Option String),
       hd ≠ some "" →
       mdAddImage d hd (.pstr s) cap = .error .unboundLocalError) ∧
    (∀ (d : Doc) (s : String) (cap : Option String),
       mdAddImage d (some "") (.pstr s) cap = .error .indexError) ∧
    (∀ (ctx : Ctx) (h l : String) (ctr : Counters)
       (ch : List (String × Node)) (s : String) (cap : Option String),
       (secAddImage ctx h l ctr ch (.pstr s) cap).2.2.2 =
         Node.nimage (some (headerLocation h l)) s (cap.getD "") ∧
       lookupC (secAddImage ctx h l ctr ch (.pstr s) cap).2.2.1
           ("image" ++ toString ctr.image) =
         some (Node.nimage (some (headerLocation h l)) s (cap.getD ""))) := by
  refine ⟨?_, ?_, ?_⟩
  · intro d hd s cap hhd
    cases hd with
    | none => simp [mdAddImage]
    | some hdv =>
        have : hdv ≠ "" := fun hh => hhd (by rw [hh])
        simp [mdAddImage, this]
  · intro d s cap
    simp [mdAddImage]
  · intro ctx h l ctr ch s cap
    constructor
    · simp [secAddImage, secAddSectionNone]
    · simp [secAddImage, secAddSectionNone, secGetSectionName,
        lookupC_setC_self]

theorem c10_image_path_string_witness :
    mdAddImage freshDoc (some "Sec") (.pstr "img.png") none =
      .error .unboundLocalError ∧
    (secAddImage freshDoc.ctx "Sec" "" Counters.zero [] (.pstr "img.png")
        none).2.2.2 = Node.nimage (some "Sec") "img.png" "" :=
  ⟨c10_image_path_string.1 freshDoc (some "Sec") "img.png" none
     (by decide),
   (c10_image_path_string.2.2 freshDoc.ctx "Sec" "" Counters.zero []
     "img.png" none).1⟩

/-! ## Claim C8 -/

/-- `Section.add_text` on the node at an address inside a tree
(`AttributeError` when the addressed node is a content block, which has
no `add_text`). -/
def addTextAt (ctx : Ctx) (nd : Node) (addr : List String) (txt : String) :
    Except PyErr (Ctx × Node) :=
  match addr with
  | [] =>
      match nd with
      | Node.nsec h l c ch =>
          let a := secAddText ctx h l c ch txt
          .ok (a.1, Node.nsec h l a.2.1 a.2.2.1)
      | _ => .error .attributeError
  | s :: rest =>
      match nd with
      | Node.nsec h l c ch =>
          match lookupC ch s with
          | some child =>
              match addTextAt ctx child rest txt with
              | .error e => .error e
              | .ok (ctx', child') =>
                  .ok (ctx', Node.nsec h l c (setC ch s child'))
          | none => .error .keyError
      | _ => .error .attributeError

/-- The spec-side composite the assignment shorthand is compared to:
resolve the path with the vivifying `__getitem__`, then append the text
block to the resolved node. -/
def setStrViaResolve (ctx : Ctx) (nd : Node) (key txt : String) :
    Except PyErr (Ctx × Node) :=
  match resolveSegs ctx.hdrs nd (pySplit (pyStripSlash key)) with
  | .error e => .error e
  | .ok (hdrs', nd', addr) =>
      addTextAt { ctx with hdrs := hdrs' } nd' addr txt

theorem setVSegs_pystr (segs : List String) :
    ∀ (ctx : Ctx) (nd : Node) (txt : String), segs ≠ [] →
      setVSegs ctx nd segs (.pystr txt) =
        match resolveSegs ctx.hdrs nd segs with
        | .error e => .error e
        | .ok (hdrs', nd', addr) =>
            addTextAt { ctx with hdrs := hdrs' } nd' addr txt := by
  induction segs with
  | nil => intro ctx nd txt hne; exact absurd rfl hne
  | cons s rest ih =>
      intro ctx nd txt _
      cases rest with
      | nil =>
          cases nd with
          | nsec h l c ch =>
              rw [setVSegs, resolveSegs]
              rcases hr : secGet1 ctx.hdrs (headerLocation h l) ch s with
                ⟨r1, rch, rnd⟩
              simp only [hr, resolveSegs]
              cases rnd with
              | nsec h2 l2 c2 ch2 =>
                  simp only [addTextAt, lookupC_setC_self, setC_setC]
              | ntext loc b => simp [addTextAt, lookupC_setC_self]
              | ncode loc b lang => simp [addTextAt, lookupC_setC_self]
              | nimage loc src cap => simp [addTextAt, lookupC_setC_self]
              | ntable loc cells cn rn => simp [addTextAt, lookupC_setC_self]
              | nlist loc items m => simp [addTextAt, lookupC_setC_self]
              | nlink loc url t => simp [addTextAt, lookupC_setC_self]
              | ncheckbox loc items cks =>
                  simp [addTextAt, lookupC_setC_self]
              all_goals
                first
                  | (intro blk hh; cases hh)
                  | (intro hh; cases hh)
          | ntext loc b => simp [setVSegs, resolveSegs]
          | ncode loc b lang => simp [setVSegs, resolveSegs]
          | nimage loc src cap => simp [setVSegs, resolveSegs]
          | ntable loc cells cn rn => simp [setVSegs, resolveSegs]
          | nlist loc items m => simp [setVSegs, resolveSegs]
          | nlink loc url t => simp [setVSegs, resolveSegs]
          | ncheckbox loc items cks => simp [setVSegs, resolveSegs]
      | cons s2 rest2 =>
          cases nd with
          | nsec h l c ch =>
              rw [setVSegs, resolveSegs]
              rcases hr : secGet1 ctx.hdrs (headerLocation h l) ch s with
                ⟨r1, rch, rnd⟩
              simp only [hr]
              rw [ih { ctx with hdrs := r1 } rnd txt (by simp)]
              cases hrec : resolveSegs r1 rnd (s2 :: rest2) with
              | error e => simp only [hrec]
              | ok r2 =>
                  rcases r2 with ⟨h2, nd2, a2⟩
                  simp only [hrec, addTextAt, lookupC_setC_self]
                  cases hat : addTextAt { ctx with hdrs := h2 } nd2 a2 txt with
                  | error e => simp only [hat]
                  | ok p =>
                      rcases p with ⟨ctx', sub'⟩
                      simp only [hat, setC_setC]
              all_goals (intro hh; cases hh)
          | ntext loc b => simp [setVSegs, resolveSegs]
          | ncode loc b lang => simp [setVSegs, resolveSegs]
          | nimage loc src cap => simp [setVSegs, resolveSegs]
          | ntable loc cells cn rn => simp [setVSegs, resolveSegs]
          | nlist loc items m => simp [setVSegs, resolveSegs]
          | nlink loc url t => simp [setVSegs, resolveSegs]
          | ncheckbox loc items cks => simp [setVSegs, resolveSegs]

/-- The document after the root assignment `mdGen["S"] = "v"`. -/
def c8setDoc : Doc :=
  match mdSetitemV freshDoc "S" (.pystr "v") with
  | .ok d => d
  | .error _ => freshDoc

/-- The document after `mdGen.add_text("S", "v")`. -/
def c8addDoc : Doc :=
  match mdAddText freshDoc (some "S") "v" with
  | .ok (d, _) => d
  | .error _ => freshDoc

/-- C8 (counterexample): on a fresh document, the root assignment
`mdGen["S"] = "v"` stores the text block at the ROOT under `text0` and
never creates (or touches) section `S` — `MDGenerator.__setitem__`'s
string branch calls `self.add_text(None, section)`, discarding the key —
whereas `add_text("S", "v")` creates section `S` holding the block.
The two results differ, refuting the claimed equivalence at the
document root. -/
theorem c8_counterexample :
    c8setDoc.children.map Prod.fst = ["text0"] ∧
    lookupC c8setDoc.children "S" = none ∧
    c8addDoc.children.map Prod.fst = ["S"] ∧
    c8setDoc.children.map Prod.fst ≠ c8addDoc.children.map Prod.fst :=
  ⟨rfl, rfl, rfl, by decide⟩

/-- C8 (amended): at sections the shorthand is exactly
resolve-then-append — `Section.__setitem__` with a plain string equals
resolving the key with the vivifying `__getitem__` and calling
`add_text` on the resolved node — and this also covers multi-segment
keys at the root, which delegate to the section machinery; but a
single-segment string assignment at the document root ignores the key:
it equals `MDGenerator.add_text(None, value)`, appending the text to
the root itself. -/
theorem c8_assignment :
    (∀ (ctx : Ctx) (nd : Node) (key txt : String),
       secSetitemV ctx nd key (.pystr txt) =
         setStrViaResolve ctx nd key txt) ∧
    (∀ (d : Doc) (s : String) (txt : String), s ≠ "" → '/' ∉ s.data →
       mdSetitemV d s (.pystr txt) =
         match mdAddText d none txt with
         | .ok (d', _) => .ok d'
         | .error e => .error e) := by
  constructor
  · intro ctx nd key txt
    rw [secSetitemV, setStrViaResolve]
    exact setVSegs_pystr (pySplit (pyStripSlash key)) ctx nd txt
      (splitAux_ne_nil _ _)
  · intro d s txt hs hslash
    have hne : s.data ≠ [] := fun hn => hs (String.ext hn)
    obtain ⟨c, cs, hdc⟩ := List.exists_cons_of_ne_nil hne
    have hc : c ≠ '/' := by
      intro hh
      exact hslash (by rw [hdc, hh]; exact List.mem_cons_self _ _)
    have hsplit : splitAux (c :: cs) [] = [s] := by
      rw [← hdc]
      exact splitAux_data_no_slash s hslash
    simp only [mdSetitemV, hdc]
    rw [if_neg hc] at *
    rw [← hdc, hdc, hsplit]
    dsimp only
    cases hmd : mdAddText d none txt with
    | error e => rfl
    | ok p => rfl

theorem c8_assignment_witness :
    secSetitemV freshDoc.ctx (Node.nsec "R" "" Counters.zero [])
        "A/B" (.pystr "v") =
      setStrViaResolve freshDoc.ctx (Node.nsec "R" "" Counters.zero [])
        "A/B" "v" ∧
    mdSetitemV freshDoc "S" (.pystr "v") =
      (match mdAddText freshDoc none "v" with
       | .ok (d', _) => .ok d'
       | .error e => .error e) :=
  ⟨c8_assignment.1 freshDoc.ctx (Node.nsec "R" "" Counters.zero [])
     "A/B" "v",
   c8_assignment.2 freshDoc "S" "v" (by decide) (by decide)⟩

/-! ## Claim C9 -/

theorem lookupC_eq_none_of_not_mem (ch : List (String × Node)) (k : String)
    (h : k ∉ ch.map Prod.fst) : lookupC ch k = none := by
  induction ch with
  | nil => rfl
  | cons p rest ih =>
      obtain ⟨k0, v0⟩ := p
      simp only [List.map_cons, List.mem_cons] at h
      push_neg at h
      simp only [lookupC, ih h.2]
      rw [if_neg (fun hh => h.1 hh.symm)]

theorem lookupC_delC_self (ch : List (String × Node)) (k : String)
    (hnd : (ch.map Prod.fst).Nodup) : lookupC (delC ch k) k = none := by
  induction ch with
  | nil => rfl
  | cons p rest ih =>
      obtain ⟨k0, v0⟩ := p
      simp only [List.map_cons, List.nodup_cons] at hnd
      by_cases h0 : k0 = k
      · subst h0
        simp only [delC, if_pos rfl]
        exact lookupC_eq_none_of_not_mem rest k0 hnd.1
      · simp only [delC, if_neg h0, lookupC, if_neg h0, ih hnd.2]

theorem lookupC_delC_ne (ch : List (String × Node)) (k k' : String)
    (h : k' ≠ k) : lookupC (delC ch k) k' = lookupC ch k' := by
  have h' : k ≠ k' := fun hh => h hh.symm
  induction ch with
  | nil => rfl
  | cons p rest ih =>
      obtain ⟨k0, v0⟩ := p
      by_cases h0 : k0 = k
      · subst h0
        simp [delC, lookupC, h']
      · simp only [delC, if_neg h0, lookupC]
        by_cases h1 : k0 = k'
        · simp [h1]
        · simp [h1, ih]

/-- C9 (counterexample): deleting the nested child `B` of section `A`
(full path `A/B`, present in the registry) removes the child from the
mapping but leaves the registry entry `"A/B"` untouched —
`Section.__delitem__` compares registry entries against the bare key,
not the child's full path. -/
theorem c9_counterexample :
    headerLocation "B" "A" = "A/B" ∧
    "A/B" ∈ (["A", "A/B"] : List String) ∧
    secDelitem ["A", "A/B"] [("B", Node.nsec "B" "A" Counters.zero [])]
        "B" = .ok (["A", "A/B"], []) ∧
    "A/B" ∈ (["A", "A/B"] : List String) :=
  ⟨rfl, by decide, rfl, by decide⟩

/-- C9 (amended): `del section[key]` removes exactly that child from
the mapping (`KeyError` when absent; every other child's binding is
untouched) and removes the first registry entry equal to the BARE key,
if any — which coincides with the deleted child's full path only for
root-level children (`MDGenerator.__delitem__` behaves identically at
the root, where the bare key is the full path); a nested child's
full-path registry entry is left stale. -/
theorem c9_deletion :
    (∀ (hdrs : List String) (children : List (String × Node))
       (k : String) (nd : Node),
       lookupC children k = some nd →
       secDelitem hdrs children k = .ok (hdrs.erase k, delC children k)) ∧
    (∀ (children : List (String × Node)) (k : String),
       (children.map Prod.fst).Nodup →
       lookupC (delC children k) k = none) ∧
    (∀ (children : List (String × Node)) (k k' : String), k' ≠ k →
       lookupC (delC children k) k' = lookupC children k') ∧
    (∀ (d : Doc) (k : String) (nd : Node),
       lookupC d.children k = some nd →
       mdDelitem d k =
         .ok { d with
                 children := delC d.children k
                 ctx := { d.ctx with hdrs := d.ctx.hdrs.erase k } }) := by
  have herase : ∀ (hdrs : List String) (k : String),
      (if hdrs.contains k then hdrs.erase k else hdrs) = hdrs.erase k := by
    intro hdrs k
    by_cases hmem : k ∈ hdrs
    · rw [if_pos (List.elem_iff.mpr hmem)]
    · rw [if_neg (by simp [List.elem_iff, hmem]),
        List.erase_of_not_mem hmem]
  refine ⟨?_, ?_, ?_, ?_⟩
  · intro hdrs children k nd hl
    simp only [secDelitem, hl, herase]
  · intro children k hnd
    exact lookupC_delC_self children k hnd
  · intro children k k' hne
    exact lookupC_delC_ne children k k' hne
  · intro d k nd hl
    simp only [mdDelitem, hl, herase]

theorem c9_deletion_witness :
    secDelitem ["A", "A/B"] [("B", Node.nsec "B" "A" Counters.zero [])]
        "B" =
      .ok ((["A", "A/B"] : List String).erase "B",
           delC [("B", Node.nsec "B" "A" Counters.zero [])] "B") ∧
    lookupC (delC [("B", Node.nsec "B" "A" Counters.zero []),
        ("text0", Node.ntext none "t")] "B") "text0" =
      lookupC [("B", Node.nsec "B" "A" Counters.zero []),
        ("text0", Node.ntext none "t")] "text0" :=
  ⟨c9_deletion.1 ["A", "A/B"] [("B", Node.nsec "B" "A" Counters.zero [])]
     "B" (Node.nsec "B" "A" Counters.zero []) (by rfl),
   c9_deletion.2.2.1 [("B", Node.nsec "B" "A" Counters.zero []),
     ("text0", Node.ntext none "t")] "B" "text0" (by decide)⟩
